import Mathlib

/-!
# Waveshare Raspberry Pi 5 UPS driver (`rpi-ups.c`)

A shallow embedding of the driver's sample cache, of its two property
translators (`rpi_ups_battery_get_property`, `rpi_ups_usb_charger_get_property`),
of the sampling loop (`rpi_ups_update_thread`) and of the attach and detach
callbacks (`rpi_ups_probe`, `rpi_ups_remove`), followed by the properties
established about them.

Conventions of the embedding:

* a `u8` is a `Fin 256`; a buffer `u8 buf[n]` is a function `Fin n → u8`;
* C `int` expressions are computed in `Int`; the result of an `int`
  multiplication is reduced to 32 bits by `cast_int`, a conversion to
  `int16_t` is `cast_int16_t`;
* a function that receives pointers (`data`, `val`) takes the pointed-to values
  and returns them next to its return code;
* calls into the kernel that act on the outside world (register transfers,
  logging, sleeping, power-off) are recorded as a list of `event`s, and what
  the outside world answers is an input of the cycle;
* for the locking discipline, each function is also given as the sequence of
  its lock operations and cache accesses in program order (`access_step`).
-/

namespace RpiUps

/-! ## Machine integers -/

/-- An unsigned byte. -/
abbrev u8 := Fin 256

/-- Conversion of an integer to the 32-bit `int` (two's complement). -/
def cast_int (x : Int) : Int := (x + 2147483648) % 4294967296 - 2147483648

/-- The conversion `(int16_t)(x)` (two's complement, 16 bits). -/
def cast_int16_t (x : Int) : Int := (x + 32768) % 65536 - 32768

/-- The C expression `lo | (hi << 8)` on two bytes promoted to `int`. -/
def le16 (lo hi : u8) : Int := ((lo.val ||| (hi.val <<< 8) : Nat) : Int)

/-! ## Constants of the driver and of the kernel interface -/

def DESIGN_FULL_ENERGY_UWH : Int := 72000000

def DESIGN_FULL_ENERGY_MAH : Int := 4800

def DATA_TIMEOUT_MS : Nat := 5000

/-- Modelled from the spec: the error number of `InvalidArgument`, declared in
the kernel headers and not in the driver; the function returns `-EINVAL`. -/
def EINVAL : Int := 22

/-- Modelled from the spec: the code of the state "charging", declared in the
kernel's `power_supply.h` and not in the driver. -/
def POWER_SUPPLY_STATUS_CHARGING : Int := 1

/-- Modelled from the spec: the code of the state "discharging", declared in the
kernel's `power_supply.h` and not in the driver. -/
def POWER_SUPPLY_STATUS_DISCHARGING : Int := 2

/-- Modelled from the spec: the code of the state "not charging", declared in
the kernel's `power_supply.h` and not in the driver. -/
def POWER_SUPPLY_STATUS_NOT_CHARGING : Int := 3

/-- Modelled from the spec: the comparison `time_after(a, b)` of the kernel's
`jiffies.h`, which is not part of the driver. The spec describes the
timestamp as monotonic and the test as `now − last-update > timeout`, so
timestamps are natural numbers (ticks since start) and `a` is after `b` when
`b < a`; the wrap of the tick counter is not modelled. -/
def time_after (a b : Nat) : Bool := decide (b < a)

/-- Modelled from the spec: the conversion `msecs_to_jiffies(m)` of the kernel's
`jiffies.h`, which is not part of the driver: the number of ticks that cover
`m` milliseconds when the clock makes `HZ` ticks per second (rounded up). -/
def msecs_to_jiffies (HZ m : Nat) : Nat := (m * HZ + 999) / 1000

/-- The property keys of `enum power_supply_property` that the driver names;
`POWER_SUPPLY_PROP_OTHER id` stands for any other member of the kernel's
enumeration. -/
inductive power_supply_property where
  | POWER_SUPPLY_PROP_STATUS
  | POWER_SUPPLY_PROP_PRESENT
  | POWER_SUPPLY_PROP_VOLTAGE_NOW
  | POWER_SUPPLY_PROP_CURRENT_NOW
  | POWER_SUPPLY_PROP_POWER_NOW
  | POWER_SUPPLY_PROP_CAPACITY
  | POWER_SUPPLY_PROP_ENERGY_NOW
  | POWER_SUPPLY_PROP_ENERGY_FULL
  | POWER_SUPPLY_PROP_MODEL_NAME
  | POWER_SUPPLY_PROP_MANUFACTURER
  | POWER_SUPPLY_PROP_TIME_TO_EMPTY_NOW
  | POWER_SUPPLY_PROP_TIME_TO_FULL_NOW
  | POWER_SUPPLY_PROP_CAPACITY_ALERT_MIN
  | POWER_SUPPLY_PROP_OTHER (id : Nat)
  deriving DecidableEq, Repr

open power_supply_property

/-- The value cell `union power_supply_propval`: the member last written. -/
inductive power_supply_propval where
  | intval (n : Int)
  | strval (s : String)
  deriving DecidableEq, Repr

/-! ## The sample cache -/

/-- The fields of `struct rpi_ups_data` that the translators and the sampling
loop use; `client_addr` is `data->client->addr`. -/
structure rpi_ups_data where
  client_addr : Nat
  battery_buf : Fin 12 → u8
  charger_buf : Fin 6 → u8
  charger_status : u8
  last_update_jiffies : Nat

/-- The property keys of the battery endpoint. -/
def rpi_ups_battery_props : List power_supply_property :=
  [POWER_SUPPLY_PROP_STATUS, POWER_SUPPLY_PROP_PRESENT, POWER_SUPPLY_PROP_VOLTAGE_NOW,
   POWER_SUPPLY_PROP_CURRENT_NOW, POWER_SUPPLY_PROP_POWER_NOW, POWER_SUPPLY_PROP_CAPACITY,
   POWER_SUPPLY_PROP_ENERGY_NOW, POWER_SUPPLY_PROP_ENERGY_FULL, POWER_SUPPLY_PROP_MODEL_NAME,
   POWER_SUPPLY_PROP_MANUFACTURER, POWER_SUPPLY_PROP_TIME_TO_EMPTY_NOW,
   POWER_SUPPLY_PROP_TIME_TO_FULL_NOW, POWER_SUPPLY_PROP_CAPACITY_ALERT_MIN]

/-- The property keys of the USB charger endpoint. -/
def rpi_ups_usb_charger_props : List power_supply_property :=
  [POWER_SUPPLY_PROP_STATUS, POWER_SUPPLY_PROP_VOLTAGE_NOW, POWER_SUPPLY_PROP_CURRENT_NOW,
   POWER_SUPPLY_PROP_POWER_NOW]

/-- A buffer of `n` bytes given by the list of its bytes (missing bytes are 0). -/
def buf_of_list (n : Nat) (l : List u8) : Fin n → u8 := fun i => l.getD i.val 0

/-! ## The property translators -/

/-- What a `get_property` callback leaves behind: its return code, the value
cell and the cache. -/
structure get_property_result where
  ret : Int
  val : power_supply_propval
  data : rpi_ups_data

/-- The battery translator `rpi_ups_battery_get_property`. `HZ` is the kernel's
tick rate, `now` the value of `jiffies` read on entry, `val` the content of
the caller's value cell before the call. -/
def rpi_ups_battery_get_property (HZ : Nat) (data : rpi_ups_data) (now : Nat)
    (psp : power_supply_property) (val : power_supply_propval) : get_property_result :=
  let buf := data.battery_buf
  if time_after now (data.last_update_jiffies + msecs_to_jiffies HZ DATA_TIMEOUT_MS) = true
      ∧ psp = POWER_SUPPLY_PROP_PRESENT then
    { ret := 0, val := .intval 0, data := data }
  else
    match psp with
    | POWER_SUPPLY_PROP_STATUS =>
      let raw_current := cast_int16_t (le16 (buf 2) (buf 3))
      { ret := 0
        val := .intval (if raw_current < 0 then POWER_SUPPLY_STATUS_DISCHARGING
                        else POWER_SUPPLY_STATUS_CHARGING)
        data := data }
    | POWER_SUPPLY_PROP_PRESENT => { ret := 0, val := .intval 1, data := data }
    | POWER_SUPPLY_PROP_VOLTAGE_NOW =>
      { ret := 0, val := .intval (cast_int (le16 (buf 0) (buf 1) * 1000)), data := data }
    | POWER_SUPPLY_PROP_CURRENT_NOW =>
      let raw_current := cast_int16_t (le16 (buf 2) (buf 3))
      { ret := 0, val := .intval (cast_int (raw_current * 1000)), data := data }
    | POWER_SUPPLY_PROP_CAPACITY =>
      { ret := 0, val := .intval (le16 (buf 4) (buf 5)), data := data }
    | POWER_SUPPLY_PROP_ENERGY_NOW =>
      let energy := cast_int (le16 (buf 6) (buf 7) * 14800)
      { ret := 0, val := .intval energy, data := data }
    | POWER_SUPPLY_PROP_ENERGY_FULL =>
      { ret := 0, val := .intval DESIGN_FULL_ENERGY_UWH, data := data }
    | POWER_SUPPLY_PROP_MODEL_NAME => { ret := 0, val := .strval "RPI-UPS", data := data }
    | POWER_SUPPLY_PROP_MANUFACTURER => { ret := 0, val := .strval "Waveshare", data := data }
    | POWER_SUPPLY_PROP_TIME_TO_EMPTY_NOW =>
      let raw_current := cast_int16_t (le16 (buf 2) (buf 3))
      if raw_current < 0 then
        { ret := 0, val := .intval (le16 (buf 8) (buf 9)), data := data }
      else
        { ret := 0, val := .intval 0, data := data }
    | POWER_SUPPLY_PROP_TIME_TO_FULL_NOW =>
      let raw_current := cast_int16_t (le16 (buf 2) (buf 3))
      if raw_current < 0 then
        { ret := 0, val := .intval 0, data := data }
      else
        { ret := 0, val := .intval (le16 (buf 10) (buf 11)), data := data }
    | POWER_SUPPLY_PROP_POWER_NOW =>
      let raw_current := cast_int16_t (le16 (buf 2) (buf 3))
      { ret := 0, val := .intval (cast_int (le16 (buf 0) (buf 1) * raw_current)), data := data }
    | POWER_SUPPLY_PROP_CAPACITY_ALERT_MIN => { ret := 0, val := .intval 5, data := data }
    | POWER_SUPPLY_PROP_OTHER _ => { ret := -EINVAL, val := val, data := data }

/-- The charger translator `rpi_ups_usb_charger_get_property`. -/
def rpi_ups_usb_charger_get_property (data : rpi_ups_data)
    (psp : power_supply_property) (val : power_supply_propval) : get_property_result :=
  let status := data.charger_status
  let buf := data.charger_buf
  match psp with
  | POWER_SUPPLY_PROP_STATUS =>
    if status.val &&& 0x40 ≠ 0 then
      { ret := 0, val := .intval POWER_SUPPLY_STATUS_CHARGING, data := data }
    else if status.val &&& 0x80 ≠ 0 then
      { ret := 0, val := .intval POWER_SUPPLY_STATUS_CHARGING, data := data }
    else if status.val &&& 0x20 ≠ 0 then
      { ret := 0, val := .intval POWER_SUPPLY_STATUS_DISCHARGING, data := data }
    else
      { ret := 0, val := .intval POWER_SUPPLY_STATUS_NOT_CHARGING, data := data }
  | POWER_SUPPLY_PROP_VOLTAGE_NOW =>
    { ret := 0, val := .intval (le16 (buf 0) (buf 1)), data := data }
  | POWER_SUPPLY_PROP_CURRENT_NOW =>
    { ret := 0, val := .intval (le16 (buf 2) (buf 3)), data := data }
  | POWER_SUPPLY_PROP_POWER_NOW =>
    { ret := 0, val := .intval (le16 (buf 4) (buf 5)), data := data }
  | _ => { ret := -EINVAL, val := val, data := data }

/-- The battery block of the spec's concrete scenario. -/
def scenario_block : Fin 12 → u8 :=
  buf_of_list 12 [0x8C, 0x34, 0x38, 0xFF, 0x05, 0x00, 0x64, 0x00, 0x0A, 0x00, 0x00, 0x00]

/-! ## The sampling loop -/

/-- The calls of the sampling loop that act outside the driver, in the order
they are made. The three `pr_*` messages of the shutdown path and the
countdown message are kept apart by constructor. -/
inductive event where
  | i2c_smbus_read_i2c_block_data (addr command length : Nat)
  | i2c_smbus_write_byte_data (addr command value : Nat)
  | kernel_power_off
  | msleep (msecs : Nat)
  | pr_info_low_battery (capacity raw_current : Int)
  | pr_err_write_failed (ret : Int)
  | pr_info_write_ok
  | pr_err_write_skipped
  | pr_info_countdown (seconds : Int)
  deriving DecidableEq, Repr

/-- What `i2c_smbus_read_i2c_block_data` answers for a read of `n` bytes: its
return value and the content of the caller's local buffer after the call. -/
structure i2c_read (n : Nat) where
  ret : Int
  buf : Fin n → u8

/-- What the outside world answers during one iteration of the loop: the stop
request seen at the top, the three register reads, the value of `jiffies`
when the timestamp is taken, and the return value of the protective write
(used only when the write is made). -/
structure cycle_input where
  kthread_should_stop : Bool
  read_0x20 : i2c_read 12
  jiffies : Nat
  read_0x02 : i2c_read 1
  read_0x10 : i2c_read 6
  write_0x01 : Int

/-- The state after one iteration of the loop body: the cache, the locals
`low_counter`, `capacity`, `raw_current` and `voltage`, the calls made, and
whether the body left the loop by `break`. -/
structure cycle_result where
  data : rpi_ups_data
  low_counter : Int
  capacity : Int
  raw_current : Int
  voltage : Int
  events : List event
  exit : Bool

/-- The cache after the three reads of an iteration (lines 84 to 104): each
block is copied under the lock when its read returned a non-negative value,
and the timestamp is set in the first locked section. -/
def cache_after_reads (data : rpi_ups_data) (i : cycle_input) : rpi_ups_data :=
  let data1 : rpi_ups_data :=
    if i.read_0x20.ret ≥ 0 then { data with battery_buf := i.read_0x20.buf } else data
  let data2 : rpi_ups_data := { data1 with last_update_jiffies := i.jiffies }
  let data3 : rpi_ups_data :=
    if i.read_0x02.ret ≥ 0 then { data2 with charger_status := i.read_0x02.buf 0 } else data2
  if i.read_0x10.ret ≥ 0 then { data3 with charger_buf := i.read_0x10.buf } else data3

/-- The calls of the shutdown path between the low-battery message and the
power-off (lines 125 to 136): the protective write and the message on its
outcome when the device address is 0x2d, the message that it is skipped
otherwise. -/
def shutdown_write (addr : Nat) (write_ret : Int) : List event :=
  if addr = 0x2d then
    [.i2c_smbus_write_byte_data addr 0x01 0x55,
     if write_ret < 0 then .pr_err_write_failed write_ret else .pr_info_write_ok]
  else
    [.pr_err_write_skipped]

/-- One iteration of the body of the `while` loop of `rpi_ups_update_thread`
(lines 84 to 151), started with cache `data` and counter `low_counter`. -/
def rpi_ups_update_cycle (data : rpi_ups_data) (low_counter : Int) (i : cycle_input) :
    cycle_result :=
  let addr := data.client_addr
  let data := cache_after_reads data i
  let reads : List event :=
    [.i2c_smbus_read_i2c_block_data addr 0x20 12,
     .i2c_smbus_read_i2c_block_data addr 0x02 1,
     .i2c_smbus_read_i2c_block_data addr 0x10 6]
  let capacity := le16 (data.battery_buf 4) (data.battery_buf 5)
  let raw_current := cast_int16_t (le16 (data.battery_buf 2) (data.battery_buf 3))
  let voltage := le16 (data.battery_buf 0) (data.battery_buf 1)
  if capacity ≤ 5 ∧ raw_current < 50 then
    let low_counter := cast_int (low_counter + 1)
    if low_counter ≥ 30 then
      { data := data, low_counter := low_counter, capacity := capacity,
        raw_current := raw_current, voltage := voltage,
        events := reads ++ [.pr_info_low_battery capacity raw_current]
                    ++ shutdown_write addr i.write_0x01 ++ [.kernel_power_off],
        exit := true }
    else
      { data := data, low_counter := low_counter, capacity := capacity,
        raw_current := raw_current, voltage := voltage,
        events := reads ++ [.pr_info_countdown (cast_int (60 - cast_int (2 * low_counter))),
                            .msleep 1000],
        exit := false }
  else
    { data := data, low_counter := 0, capacity := capacity,
      raw_current := raw_current, voltage := voltage,
      events := reads ++ [.msleep 1000],
      exit := false }

/-- A run of the sampling thread on a finite script of answers: the iterations
it made, and its return value when it returned (`none` when the script ended
with the loop still running). -/
structure thread_result where
  cycles : List cycle_result
  ret : Option Int

/-- The `while (!kthread_should_stop())` loop of `rpi_ups_update_thread`, from
cache `data` and counter `low_counter`, on a script of answers. -/
def rpi_ups_update_thread_loop (data : rpi_ups_data) (low_counter : Int) :
    List cycle_input → thread_result
  | [] => { cycles := [], ret := none }
  | i :: script =>
    if i.kthread_should_stop then
      { cycles := [], ret := some 0 }
    else
      let r := rpi_ups_update_cycle data low_counter i
      if r.exit then
        { cycles := [r], ret := some 0 }
      else
        let t := rpi_ups_update_thread_loop r.data r.low_counter script
        { cycles := r :: t.cycles, ret := t.ret }

/-- The sampling thread `rpi_ups_update_thread`: the loop entered with
`low_counter = 0`. -/
def rpi_ups_update_thread (data : rpi_ups_data) (script : List cycle_input) : thread_result :=
  rpi_ups_update_thread_loop data 0 script

/-- The calls made over a list of iterations, in order. -/
def trace : List cycle_result → List event
  | [] => []
  | r :: rs => r.events ++ trace rs

/-! ## Notions used to state the properties -/

/-- The low-battery test of the loop (line 117) on the locals of an iteration. -/
def low_battery (r : cycle_result) : Bool := decide (r.capacity ≤ 5 ∧ r.raw_current < 50)

/-- The low-battery condition that each iteration of a script evaluates, as
long as the loop keeps running: the cache evolves with the reads only, so the
sequence does not depend on the counter. -/
def condition_seq (data : rpi_ups_data) : List cycle_input → List Bool
  | [] => []
  | i :: script =>
    let r := rpi_ups_update_cycle data 0 i
    low_battery r :: condition_seq r.data script

/-- The length of the run of `true` that ends a sequence of conditions. -/
def run_length (cs : List Bool) : Nat := (cs.reverse.takeWhile (fun b => b)).length

/-- The low-battery test of the loop (lines 108 to 117) on a cached battery
block: `capacity <= 5 && raw_current < 50`. -/
def shutdown_condition (b : Fin 12 → u8) : Prop :=
  le16 (b 4) (b 5) ≤ 5 ∧ cast_int16_t (le16 (b 2) (b 3)) < 50

instance (b : Fin 12 → u8) : Decidable (shutdown_condition b) := by
  unfold shutdown_condition
  infer_instance

/-- The three register reads that open every iteration. -/
def cycle_reads (addr : Nat) : List event :=
  [.i2c_smbus_read_i2c_block_data addr 0x20 12,
   .i2c_smbus_read_i2c_block_data addr 0x02 1,
   .i2c_smbus_read_i2c_block_data addr 0x10 6]

/-- The counter that the loop's rule (one more on a true condition, back to 0 on
a false one) reaches from `c` over a sequence of conditions. -/
def counter_after (c : Nat) (cs : List Bool) : Nat :=
  cs.foldl (fun n b => if b then n + 1 else 0) c

/-- The calls made in iteration `k` (counted from 0) of a run; none when the run
has no such iteration. -/
def events_at (rs : List cycle_result) (k : Nat) : List event :=
  (rs[k]?.map cycle_result.events).getD []

/-- The value of `low_counter` after iteration `k` (counted from 0) of a run; 0
when the run has no such iteration. -/
def counter_at (rs : List cycle_result) (k : Nat) : Int :=
  (rs[k]?.map cycle_result.low_counter).getD 0

/-- Host power-off is invoked in iteration `k` (counted from 0) of a run. -/
def fires_at (rs : List cycle_result) (k : Nat) : Prop :=
  event.kernel_power_off ∈ events_at rs k

instance (rs : List cycle_result) (k : Nat) : Decidable (fires_at rs k) := by
  unfold fires_at
  infer_instance

/-- Iteration `k` (counted from 0) and the 29 iterations before it all evaluated
the condition to true. -/
def thirty_true (cs : List Bool) (k : Nat) : Prop :=
  29 ≤ k ∧ ∀ j, k - 29 ≤ j → j ≤ k → cs[j]? = some true

/-- The register writes among a list of calls. -/
def writes (es : List event) : List event :=
  es.filter (fun e => match e with
    | .i2c_smbus_write_byte_data _ _ _ => true
    | _ => false)

/-- The register transfers (reads and writes) among a list of calls. -/
def transfers (es : List event) : List event :=
  es.filter (fun e => match e with
    | .i2c_smbus_write_byte_data _ _ _ => true
    | .i2c_smbus_read_i2c_block_data _ _ _ => true
    | _ => false)

/-- A script of answers in which no stop is requested. -/
def never_stopped (script : List cycle_input) : Bool :=
  script.all (fun i => !i.kthread_should_stop)

/-! ## Concrete inputs -/

/-- The zero-initialised cache of a device at address 0x2d, timestamp 0. -/
def cache_zero : rpi_ups_data :=
  { client_addr := 0x2d, battery_buf := fun _ => 0, charger_buf := fun _ => 0,
    charger_status := 0, last_update_jiffies := 0 }

/-- A successful battery read of 12 bytes of which bytes 2-3 (current) and 4-5
(capacity) are given, the others 0. -/
def battery_read (current_lo current_hi capacity_lo capacity_hi : u8) : i2c_read 12 :=
  { ret := 12,
    buf := buf_of_list 12 [0, 0, current_lo, current_hi, capacity_lo, capacity_hi] }

/-- An iteration's answers with no stop request, the given battery read, and
successful status, charger and write transfers. -/
def answers (rd : i2c_read 12) : cycle_input :=
  { kthread_should_stop := false, read_0x20 := rd, jiffies := 0,
    read_0x02 := { ret := 1, buf := fun _ => 0x20 },
    read_0x10 := { ret := 6, buf := fun _ => 0 },
    write_0x01 := 0 }

/-- Answers with capacity 5 % and current -200 mA: the condition is true. -/
def answers_low : cycle_input := answers (battery_read 0x38 0xFF 5 0)

/-- Answers with capacity 80 % and current -200 mA: the condition is false. -/
def answers_ok : cycle_input := answers (battery_read 0x38 0xFF 80 0)

/-- The scripted sequence of the spec: 29 true cycles, 1 false cycle, 30 true
cycles. -/
def script_29_1_30 : List cycle_input :=
  List.replicate 29 answers_low ++ answers_ok :: List.replicate 30 answers_low

/-- The two's-complement reading of a 16-bit value, in the words of the spec. -/
def s16 (x : Int) : Int := if x < 32768 then x else x - 65536

/-- The unsigned little-endian value of two bytes, in the words of the spec. -/
def u16le (lo hi : u8) : Int := (lo.val : Int) + 256 * (hi.val : Int)

/-! ## Attach and detach -/

/-- Modelled from the spec: the error number of a failed allocation, declared in
the kernel headers and not in the driver; the probe returns `-ENOMEM`. -/
def ENOMEM : Int := 12

/-- What a kernel call that returns a pointer answers: a valid pointer, or an
error pointer (`IS_ERR`) that carries the error number `PTR_ERR`. -/
inductive ptr_outcome where
  | valid
  | error (err : Int)
  deriving DecidableEq, Repr

/-- The calls of `rpi_ups_probe` and `rpi_ups_remove` that act outside the
driver, in the order they are made. A registration and a thread start carry
whether they succeeded. -/
inductive lifecycle_event where
  | power_supply_register (name : String) (ok : Bool)
  | power_supply_unregister (name : String)
  | kthread_run (name : String) (ok : Bool)
  | kthread_stop
  | dev_err_battery (ret : Int)
  | dev_err_usb_charger (ret : Int)
  | dev_err_update_thread (ret : Int)
  | dev_info_probed
  | dev_info_removed
  deriving DecidableEq, Repr

/-- What the kernel answers during `rpi_ups_probe`: whether the allocation of
the device context succeeded, the value of `jiffies`, and the outcomes of the
two registrations and of the thread start. -/
structure probe_input where
  devm_kzalloc_ok : Bool
  jiffies : Nat
  battery : ptr_outcome
  usb_charger : ptr_outcome
  update_thread : ptr_outcome

/-- What `rpi_ups_probe` leaves behind: its return code, the calls made, the
device context when it was allocated, and whether `data->update_thread` was
assigned a non-null pointer. -/
structure probe_result where
  ret : Int
  events : List lifecycle_event
  data : Option rpi_ups_data
  update_thread : Bool

/-- The device context after `devm_kzalloc` and the initialisations of lines 307
to 310: all cache fields zero, the timestamp set to `jiffies`. -/
def probe_cache (addr jiffies : Nat) : rpi_ups_data :=
  { client_addr := addr, battery_buf := fun _ => 0, charger_buf := fun _ => 0,
    charger_status := 0, last_update_jiffies := jiffies }

/-- The attach callback `rpi_ups_probe` for a client at address `addr`. -/
def rpi_ups_probe (addr : Nat) (i : probe_input) : probe_result :=
  if i.devm_kzalloc_ok = false then
    { ret := -ENOMEM, events := [], data := none, update_thread := false }
  else
    let data := probe_cache addr i.jiffies
    match i.battery with
    | .error ret =>
      { ret := ret,
        events := [.power_supply_register "rpi-ups-battery" false, .dev_err_battery ret],
        data := some data, update_thread := false }
    | .valid =>
      match i.usb_charger with
      | .error ret =>
        { ret := ret,
          events := [.power_supply_register "rpi-ups-battery" true,
                     .power_supply_register "rpi-ups-usb-charger" false,
                     .dev_err_usb_charger ret,
                     .power_supply_unregister "rpi-ups-battery"],
          data := some data, update_thread := false }
      | .valid =>
        match i.update_thread with
        | .error ret =>
          { ret := ret,
            events := [.power_supply_register "rpi-ups-battery" true,
                       .power_supply_register "rpi-ups-usb-charger" true,
                       .kthread_run "rpi_ups_update" false,
                       .dev_err_update_thread ret,
                       .power_supply_unregister "rpi-ups-usb-charger",
                       .power_supply_unregister "rpi-ups-battery"],
            data := some data, update_thread := true }
        | .valid =>
          { ret := 0,
            events := [.power_supply_register "rpi-ups-battery" true,
                       .power_supply_register "rpi-ups-usb-charger" true,
                       .kthread_run "rpi_ups_update" true,
                       .dev_info_probed],
            data := some data, update_thread := true }

/-- The detach callback `rpi_ups_remove`; `update_thread` tells whether
`data->update_thread` is non-null. -/
def rpi_ups_remove (update_thread : Bool) : List lifecycle_event :=
  (if update_thread then [lifecycle_event.kthread_stop] else [])
    ++ [.power_supply_unregister "rpi-ups-usb-charger",
        .power_supply_unregister "rpi-ups-battery",
        .dev_info_removed]

/-- Which endpoints are registered and whether the sampling thread runs. -/
structure endpoints where
  battery : Bool
  usb_charger : Bool
  update_thread : Bool
  deriving DecidableEq, Repr

/-- The effect of one call on the registered endpoints and the thread. -/
def endpoints_step (s : endpoints) : lifecycle_event → endpoints
  | .power_supply_register name ok =>
    if ok then
      (if name = "rpi-ups-battery" then { s with battery := true }
       else if name = "rpi-ups-usb-charger" then { s with usb_charger := true }
       else s)
    else s
  | .power_supply_unregister name =>
    if name = "rpi-ups-battery" then { s with battery := false }
    else if name = "rpi-ups-usb-charger" then { s with usb_charger := false }
    else s
  | .kthread_run _ ok => if ok then { s with update_thread := true } else s
  | .kthread_stop => { s with update_thread := false }
  | _ => s

/-- The endpoints registered and the thread state after a list of calls,
starting with nothing registered and no thread. -/
def endpoints_after (es : List lifecycle_event) : endpoints :=
  es.foldl endpoints_step { battery := false, usb_charger := false, update_thread := false }

/-- The names registered successfully, in order. -/
def registered_names : List lifecycle_event → List String
  | [] => []
  | .power_supply_register name true :: es => name :: registered_names es
  | _ :: es => registered_names es

/-- The names unregistered, in order. -/
def unregistered_names : List lifecycle_event → List String
  | [] => []
  | .power_supply_unregister name :: es => name :: unregistered_names es
  | _ :: es => unregistered_names es

/-! ## Accesses to the cache and the lock -/

/-- The fields of the sample cache. -/
inductive cache_field where
  | battery_buf
  | charger_buf
  | charger_status
  | last_update_jiffies
  deriving DecidableEq, Repr

/-- The lock operations and the accesses to cache fields of a function, in
program order. `read f k` reads element `k` of field `f` (0 for a scalar),
`write f` writes the whole field. Taking the address of an array field
(`buf = data->battery_buf`) reads no cache memory and is no step. -/
inductive access_step where
  | spin_lock_irqsave
  | spin_unlock_irqrestore
  | read (f : cache_field) (k : Nat)
  | write (f : cache_field)
  deriving DecidableEq, Repr

/-- The lock operations and cache accesses of one iteration of the loop body
of `rpi_ups_update_thread` (lines 84 to 111), given whether each of the three
reads returned a non-negative value; the rest of the body touches no cache
field. -/
def rpi_ups_update_cycle_steps (ok_0x20 ok_0x02 ok_0x10 : Bool) : List access_step :=
  [.spin_lock_irqsave]
    ++ (if ok_0x20 then [.write .battery_buf] else [])
    ++ [.write .last_update_jiffies, .spin_unlock_irqrestore]
    ++ [.spin_lock_irqsave]
    ++ (if ok_0x02 then [.write .charger_status] else [])
    ++ [.spin_unlock_irqrestore]
    ++ [.spin_lock_irqsave]
    ++ (if ok_0x10 then [.write .charger_buf] else [])
    ++ [.spin_unlock_irqrestore]
    ++ [.spin_lock_irqsave,
        .read .battery_buf 4, .read .battery_buf 5,
        .read .battery_buf 2, .read .battery_buf 3,
        .read .battery_buf 0, .read .battery_buf 1,
        .spin_unlock_irqrestore]

/-- The lock operations and cache accesses of `rpi_ups_battery_get_property`
(lines 168 to 251) for key `psp`; `stale` is the outcome of `time_after`,
`discharging` that of `raw_current < 0`. -/
def rpi_ups_battery_get_property_steps (stale discharging : Bool)
    (psp : power_supply_property) : List access_step :=
  [.spin_lock_irqsave, .read .last_update_jiffies 0]
    ++ (if stale = true ∧ psp = POWER_SUPPLY_PROP_PRESENT then
          [.spin_unlock_irqrestore]
        else
          (match psp with
            | POWER_SUPPLY_PROP_STATUS => [.read .battery_buf 2, .read .battery_buf 3]
            | POWER_SUPPLY_PROP_VOLTAGE_NOW => [.read .battery_buf 0, .read .battery_buf 1]
            | POWER_SUPPLY_PROP_CURRENT_NOW => [.read .battery_buf 2, .read .battery_buf 3]
            | POWER_SUPPLY_PROP_CAPACITY => [.read .battery_buf 4, .read .battery_buf 5]
            | POWER_SUPPLY_PROP_ENERGY_NOW => [.read .battery_buf 6, .read .battery_buf 7]
            | POWER_SUPPLY_PROP_TIME_TO_EMPTY_NOW =>
              [.read .battery_buf 2, .read .battery_buf 3]
                ++ (if discharging then [.read .battery_buf 8, .read .battery_buf 9] else [])
            | POWER_SUPPLY_PROP_TIME_TO_FULL_NOW =>
              [.read .battery_buf 2, .read .battery_buf 3]
                ++ (if discharging then [] else [.read .battery_buf 10, .read .battery_buf 11])
            | POWER_SUPPLY_PROP_POWER_NOW =>
              [.read .battery_buf 2, .read .battery_buf 3,
               .read .battery_buf 0, .read .battery_buf 1]
            | _ => [])
          ++ [.spin_unlock_irqrestore])

/-- The lock operations and cache accesses of `rpi_ups_usb_charger_get_property`
(lines 266 to 295) for key `psp`: the status byte is copied and the address of
the charger block is taken inside the locked section, the bytes of the block
are read in the `switch` that follows the unlock. -/
def rpi_ups_usb_charger_get_property_steps (psp : power_supply_property) : List access_step :=
  [.spin_lock_irqsave, .read .charger_status 0, .spin_unlock_irqrestore]
    ++ (match psp with
        | POWER_SUPPLY_PROP_VOLTAGE_NOW => [.read .charger_buf 0, .read .charger_buf 1]
        | POWER_SUPPLY_PROP_CURRENT_NOW => [.read .charger_buf 2, .read .charger_buf 3]
        | POWER_SUPPLY_PROP_POWER_NOW => [.read .charger_buf 4, .read .charger_buf 5]
        | _ => [])

/-- Every access of a list of steps occurs while the lock is held; `held` tells
whether the lock is held before the first step. -/
def locked_accesses (held : Bool) : List access_step → Bool
  | [] => true
  | .spin_lock_irqsave :: rest => locked_accesses true rest
  | .spin_unlock_irqrestore :: rest => locked_accesses false rest
  | .read _ _ :: rest => held && locked_accesses held rest
  | .write _ :: rest => held && locked_accesses held rest

/-! ## Further concrete inputs -/

/-- A register read of `n` bytes that fails with `-EREMOTEIO` and leaves the
buffer at zero. -/
def failed_read (n : Nat) : i2c_read n := { ret := -121, buf := fun _ => 0 }

/-- An iteration's answers at time `jiffies` in which all three reads fail. -/
def answers_failing (jiffies : Nat) : cycle_input :=
  { kthread_should_stop := false, read_0x20 := failed_read 12, jiffies := jiffies,
    read_0x02 := failed_read 1, read_0x10 := failed_read 6, write_0x01 := 0 }

/-- Ten iterations one second apart at 250 ticks per second (ticks 250, 500,
..., 2500), every read failing. -/
def script_unplugged : List cycle_input :=
  (List.range 10).map (fun k => answers_failing (250 * (k + 1)))

/-- The cache after a run: that of its last iteration, or the initial one when
the run made no iteration. -/
def final_cache (data : rpi_ups_data) (rs : List cycle_result) : rpi_ups_data :=
  (rs.getLast?.map cycle_result.data).getD data

/-- The low-battery condition on a battery block in the words of the spec:
capacity (bytes 4-5, unsigned) at most 5 and current (bytes 2-3, signed) below
50. -/
def capacity_le_5_and_current_lt_50 (b : Fin 12 → u8) : Prop :=
  u16le (b 4) (b 5) ≤ 5 ∧ s16 (u16le (b 2) (b 3)) < 50

instance (b : Fin 12 → u8) : Decidable (capacity_le_5_and_current_lt_50 b) := by
  unfold capacity_le_5_and_current_lt_50
  infer_instance

/-! ## Lemmas on the machine integers -/

theorem le16_eq (lo hi : u8) : le16 lo hi = u16le lo hi := by
  unfold le16 u16le
  have h := Nat.mul_add_lt_is_or (i := 8) lo.isLt hi.val
  rw [Nat.shiftLeft_eq, Nat.lor_comm, Nat.mul_comm, ← h]
  push_cast
  ring

theorem u16le_range (lo hi : u8) : 0 ≤ u16le lo hi ∧ u16le lo hi ≤ 65535 := by
  unfold u16le
  have h1 := lo.isLt
  have h2 := hi.isLt
  omega

theorem cast_int16_t_eq (x : Int) (h0 : 0 ≤ x) (h1 : x ≤ 65535) : cast_int16_t x = s16 x := by
  unfold cast_int16_t s16
  split <;> omega

theorem s16_range (x : Int) (h0 : 0 ≤ x) (h1 : x ≤ 65535) : -32768 ≤ s16 x ∧ s16 x ≤ 32767 := by
  unfold s16
  split <;> omega

theorem cast_int_eq (x : Int) (h0 : -2147483648 ≤ x) (h1 : x ≤ 2147483647) : cast_int x = x := by
  unfold cast_int
  omega

theorem raw_current_eq (lo hi : u8) : cast_int16_t (le16 lo hi) = s16 (u16le lo hi) := by
  rw [le16_eq]
  exact cast_int16_t_eq _ (u16le_range lo hi).1 (u16le_range lo hi).2

theorem mul_range (v c : Int) (hv0 : 0 ≤ v) (hv1 : v ≤ 65535) (hc0 : -32768 ≤ c)
    (hc1 : c ≤ 32767) : -2147483648 ≤ v * c ∧ v * c ≤ 2147483647 := by
  constructor
  · nlinarith
  · nlinarith

theorem stale_iff (HZ last now : Nat) :
    time_after now (last + msecs_to_jiffies HZ DATA_TIMEOUT_MS) = true
      ↔ last * 1000 + 5000 * HZ < now * 1000 := by
  unfold time_after msecs_to_jiffies DATA_TIMEOUT_MS
  simp only [decide_eq_true_eq]
  omega

set_option maxRecDepth 1000000 in
theorem bits_status (s : u8) :
    (s.val &&& 0x40 ≠ 0 ↔ s.val.testBit 6 = true) ∧ (s.val &&& 0x80 ≠ 0 ↔ s.val.testBit 7 = true)
      ∧ (s.val &&& 0x20 ≠ 0 ↔ s.val.testBit 5 = true) := by
  revert s
  decide

theorem raw_current_u16le (lo hi : u8) : cast_int16_t (u16le lo hi) = s16 (u16le lo hi) :=
  cast_int16_t_eq _ (u16le_range lo hi).1 (u16le_range lo hi).2

theorem scenario_voltage : le16 (scenario_block 0) (scenario_block 1) = 13452 := by decide

theorem scenario_current :
    cast_int16_t (le16 (scenario_block 2) (scenario_block 3)) = -200 := by decide

theorem scenario_capacity : le16 (scenario_block 4) (scenario_block 5) = 5 := by decide

theorem scenario_energy : le16 (scenario_block 6) (scenario_block 7) = 100 := by decide

theorem scenario_time_to_empty : le16 (scenario_block 8) (scenario_block 9) = 10 := by decide

/-! ## The battery translator -/

/-- C1: with the battery block of the spec's scenario in the cache (whatever the
other cache fields, the tick rate, the query time and the previous content of
the value cell), the battery translator returns 0 and voltage 13,452,000,
current -200,000, status discharging, capacity 5, energy-now 1,480,000,
time-to-empty 10 and time-to-full 0. -/
theorem battery_scenario (HZ : Nat) (data : rpi_ups_data) (now : Nat)
    (val : power_supply_propval) :
    let d : rpi_ups_data := { data with battery_buf := scenario_block }
    rpi_ups_battery_get_property HZ d now POWER_SUPPLY_PROP_VOLTAGE_NOW val
        = ⟨0, .intval 13452000, d⟩
    ∧ rpi_ups_battery_get_property HZ d now POWER_SUPPLY_PROP_CURRENT_NOW val
        = ⟨0, .intval (-200000), d⟩
    ∧ rpi_ups_battery_get_property HZ d now POWER_SUPPLY_PROP_STATUS val
        = ⟨0, .intval POWER_SUPPLY_STATUS_DISCHARGING, d⟩
    ∧ rpi_ups_battery_get_property HZ d now POWER_SUPPLY_PROP_CAPACITY val
        = ⟨0, .intval 5, d⟩
    ∧ rpi_ups_battery_get_property HZ d now POWER_SUPPLY_PROP_ENERGY_NOW val
        = ⟨0, .intval 1480000, d⟩
    ∧ rpi_ups_battery_get_property HZ d now POWER_SUPPLY_PROP_TIME_TO_EMPTY_NOW val
        = ⟨0, .intval 10, d⟩
    ∧ rpi_ups_battery_get_property HZ d now POWER_SUPPLY_PROP_TIME_TO_FULL_NOW val
        = ⟨0, .intval 0, d⟩ := by
  have h1 : cast_int 13452000 = 13452000 := by decide
  have h2 : cast_int (-200000) = -200000 := by decide
  have h3 : cast_int 1480000 = 1480000 := by decide
  simp [rpi_ups_battery_get_property, scenario_voltage, scenario_current, scenario_capacity,
    scenario_energy, scenario_time_to_empty, h1, h2, h3]

/-- C5: for every cache, tick rate and query time, the key `present` succeeds
(return code 0) with value 0 when the query time is more than 5000 ms after
the cached timestamp (`now - last` ticks of `1000 / HZ` ms each exceed 5000 ms)
and value 1 otherwise; it is 1 when the query time equals the timestamp, and
the answer is the same whatever battery block the cache holds. -/
theorem battery_present (HZ : Nat) (data : rpi_ups_data) (now : Nat)
    (val : power_supply_propval) :
    rpi_ups_battery_get_property HZ data now POWER_SUPPLY_PROP_PRESENT val
        = ⟨0, .intval (if data.last_update_jiffies * 1000 + 5000 * HZ < now * 1000 then 0 else 1),
            data⟩
    ∧ rpi_ups_battery_get_property HZ data data.last_update_jiffies POWER_SUPPLY_PROP_PRESENT val
        = ⟨0, .intval 1, data⟩
    ∧ ∀ b : Fin 12 → u8,
        (rpi_ups_battery_get_property HZ { data with battery_buf := b } now
            POWER_SUPPLY_PROP_PRESENT val).ret
          = (rpi_ups_battery_get_property HZ data now POWER_SUPPLY_PROP_PRESENT val).ret
        ∧ (rpi_ups_battery_get_property HZ { data with battery_buf := b } now
            POWER_SUPPLY_PROP_PRESENT val).val
          = (rpi_ups_battery_get_property HZ data now POWER_SUPPLY_PROP_PRESENT val).val := by
  have key : ∀ (d : rpi_ups_data) (t : Nat),
      rpi_ups_battery_get_property HZ d t POWER_SUPPLY_PROP_PRESENT val
        = ⟨0, .intval (if d.last_update_jiffies * 1000 + 5000 * HZ < t * 1000 then 0 else 1),
            d⟩ := by
    intro d t
    unfold rpi_ups_battery_get_property
    by_cases h : d.last_update_jiffies * 1000 + 5000 * HZ < t * 1000
    · simp [(stale_iff HZ d.last_update_jiffies t).2 h, h]
    · have h' : ¬ time_after t (d.last_update_jiffies + msecs_to_jiffies HZ DATA_TIMEOUT_MS)
          = true := fun c => h ((stale_iff HZ d.last_update_jiffies t).1 c)
      simp [h', h]
  refine ⟨key data now, ?_, ?_⟩
  · rw [key]
    have : ¬ data.last_update_jiffies * 1000 + 5000 * HZ < data.last_update_jiffies * 1000 := by
      omega
    simp [this]
  · intro b
    rw [key, key]
    exact ⟨rfl, rfl⟩

/-- C6: for every cached battery block `b` the translator returns, with code 0,
voltage `(b0 + 256 b1) * 1000`, current `s16 (b2 + 256 b3) * 1000`, capacity
`b4 + 256 b5`, energy-now `(b6 + 256 b7) * 14800` and power-now
`(b0 + 256 b1) * s16 (b2 + 256 b3)`: the exact integers, which the 32-bit
result holds without wrapping. -/
theorem battery_decoding (HZ : Nat) (data : rpi_ups_data) (now : Nat)
    (val : power_supply_propval) :
    let b := data.battery_buf
    rpi_ups_battery_get_property HZ data now POWER_SUPPLY_PROP_VOLTAGE_NOW val
        = ⟨0, .intval (u16le (b 0) (b 1) * 1000), data⟩
    ∧ rpi_ups_battery_get_property HZ data now POWER_SUPPLY_PROP_CURRENT_NOW val
        = ⟨0, .intval (s16 (u16le (b 2) (b 3)) * 1000), data⟩
    ∧ rpi_ups_battery_get_property HZ data now POWER_SUPPLY_PROP_CAPACITY val
        = ⟨0, .intval (u16le (b 4) (b 5)), data⟩
    ∧ rpi_ups_battery_get_property HZ data now POWER_SUPPLY_PROP_ENERGY_NOW val
        = ⟨0, .intval (u16le (b 6) (b 7) * 14800), data⟩
    ∧ rpi_ups_battery_get_property HZ data now POWER_SUPPLY_PROP_POWER_NOW val
        = ⟨0, .intval (u16le (b 0) (b 1) * s16 (u16le (b 2) (b 3))), data⟩ := by
  intro b
  have hv := u16le_range (b 0) (b 1)
  have hc := s16_range _ (u16le_range (b 2) (b 3)).1 (u16le_range (b 2) (b 3)).2
  have he := u16le_range (b 6) (b 7)
  have hp := mul_range _ _ hv.1 hv.2 hc.1 hc.2
  have e1 : cast_int (u16le (b 0) (b 1) * 1000) = u16le (b 0) (b 1) * 1000 :=
    cast_int_eq _ (by omega) (by omega)
  have e2 : cast_int (s16 (u16le (b 2) (b 3)) * 1000) = s16 (u16le (b 2) (b 3)) * 1000 :=
    cast_int_eq _ (by omega) (by omega)
  have e3 : cast_int (u16le (b 6) (b 7) * 14800) = u16le (b 6) (b 7) * 14800 :=
    cast_int_eq _ (by omega) (by omega)
  have e4 := cast_int_eq _ hp.1 hp.2
  simp [rpi_ups_battery_get_property, le16_eq, raw_current_u16le, b, e1, e2, e3, e4]

/-- C7: for every cached battery block, with `current` the signed 16-bit
little-endian value of bytes 2-3: status is discharging if `current < 0` and
charging otherwise; time-to-empty is the value of bytes 8-9 if `current < 0`
and 0 otherwise; time-to-full is the value of bytes 10-11 if `current ≥ 0` and
0 otherwise; each with return code 0. -/
theorem battery_status_and_times (HZ : Nat) (data : rpi_ups_data) (now : Nat)
    (val : power_supply_propval) :
    let b := data.battery_buf
    let current := s16 (u16le (b 2) (b 3))
    rpi_ups_battery_get_property HZ data now POWER_SUPPLY_PROP_STATUS val
        = ⟨0, .intval (if current < 0 then POWER_SUPPLY_STATUS_DISCHARGING
                        else POWER_SUPPLY_STATUS_CHARGING), data⟩
    ∧ rpi_ups_battery_get_property HZ data now POWER_SUPPLY_PROP_TIME_TO_EMPTY_NOW val
        = ⟨0, .intval (if current < 0 then u16le (b 8) (b 9) else 0), data⟩
    ∧ rpi_ups_battery_get_property HZ data now POWER_SUPPLY_PROP_TIME_TO_FULL_NOW val
        = ⟨0, .intval (if current ≥ 0 then u16le (b 10) (b 11) else 0), data⟩ := by
  intro b current
  refine ⟨?_, ?_, ?_⟩
  · simp [rpi_ups_battery_get_property, le16_eq, raw_current_u16le, b, current]
  · by_cases h : s16 (u16le (data.battery_buf 2) (data.battery_buf 3)) < 0 <;>
      simp [rpi_ups_battery_get_property, le16_eq, raw_current_u16le, b, current, h]
  · by_cases h : s16 (u16le (data.battery_buf 2) (data.battery_buf 3)) < 0
    · have h' : ¬ 0 ≤ s16 (u16le (data.battery_buf 2) (data.battery_buf 3)) := by omega
      simp [rpi_ups_battery_get_property, le16_eq, raw_current_u16le, b, current, h, h']
    · have h' : 0 ≤ s16 (u16le (data.battery_buf 2) (data.battery_buf 3)) := by omega
      simp [rpi_ups_battery_get_property, le16_eq, raw_current_u16le, b, current, h, h']

/-! ## The charger translator and the unsupported keys -/

/-- C8: for every charger status byte `s` and charger block `c` in the cache,
the charger translator returns, with code 0: status charging if bit 6 or bit 7
of `s` is set (whatever bit 5), else discharging if bit 5 is set, else
not-charging; voltage `c0 + 256 c1`, current `c2 + 256 c3` and power
`c4 + 256 c5`, unsigned and unscaled. -/
theorem charger_decoding (data : rpi_ups_data) (val : power_supply_propval) :
    let s := data.charger_status
    let c := data.charger_buf
    rpi_ups_usb_charger_get_property data POWER_SUPPLY_PROP_STATUS val
        = ⟨0, .intval (if s.val.testBit 6 = true ∨ s.val.testBit 7 = true then
                          POWER_SUPPLY_STATUS_CHARGING
                        else if s.val.testBit 5 = true then POWER_SUPPLY_STATUS_DISCHARGING
                        else POWER_SUPPLY_STATUS_NOT_CHARGING), data⟩
    ∧ rpi_ups_usb_charger_get_property data POWER_SUPPLY_PROP_VOLTAGE_NOW val
        = ⟨0, .intval (u16le (c 0) (c 1)), data⟩
    ∧ rpi_ups_usb_charger_get_property data POWER_SUPPLY_PROP_CURRENT_NOW val
        = ⟨0, .intval (u16le (c 2) (c 3)), data⟩
    ∧ rpi_ups_usb_charger_get_property data POWER_SUPPLY_PROP_POWER_NOW val
        = ⟨0, .intval (u16le (c 4) (c 5)), data⟩ := by
  intro s c
  refine ⟨?_, ?_, ?_, ?_⟩
  · obtain ⟨h6, h7, h5⟩ := bits_status data.charger_status
    unfold rpi_ups_usb_charger_get_property
    by_cases b6 : data.charger_status.val.testBit 6 = true
    · simp [s, h6.2 b6, b6]
    · by_cases b7 : data.charger_status.val.testBit 7 = true
      · have n6 : ¬ (data.charger_status.val &&& 0x40 ≠ 0) := fun h => b6 (h6.1 h)
        simp only [ne_eq] at n6
        simp [s, n6, h7.2 b7, b7]
      · have n6 : ¬ (data.charger_status.val &&& 0x40 ≠ 0) := fun h => b6 (h6.1 h)
        have n7 : ¬ (data.charger_status.val &&& 0x80 ≠ 0) := fun h => b7 (h7.1 h)
        by_cases b5 : data.charger_status.val.testBit 5 = true
        · simp only [ne_eq] at n6 n7
          simp [s, n6, n7, h5.2 b5, b5, b6, b7]
        · have n5 : ¬ (data.charger_status.val &&& 0x20 ≠ 0) := fun h => b5 (h5.1 h)
          simp only [ne_eq] at n6 n7 n5
          simp [s, n6, n7, n5, b5, b6, b7]
  · simp [rpi_ups_usb_charger_get_property, le16_eq, c]
  · simp [rpi_ups_usb_charger_get_property, le16_eq, c]
  · simp [rpi_ups_usb_charger_get_property, le16_eq, c]

/-- C9: a key outside the thirteen keys of the battery endpoint makes the battery
translator return `-EINVAL`, and a key outside the four keys of the charger
endpoint makes the charger translator return `-EINVAL`; in both cases, for
every cache, tick rate and query time (fresh or stale), the value cell and
the cache are left as they were. -/
theorem unsupported_key (HZ : Nat) (data : rpi_ups_data) (now : Nat)
    (psp : power_supply_property) (val : power_supply_propval) :
    (psp ∉ rpi_ups_battery_props →
        rpi_ups_battery_get_property HZ data now psp val = ⟨-EINVAL, val, data⟩)
    ∧ (psp ∉ rpi_ups_usb_charger_props →
        rpi_ups_usb_charger_get_property data psp val = ⟨-EINVAL, val, data⟩) := by
  constructor
  · intro h
    cases psp <;> simp [rpi_ups_battery_props] at h
    simp [rpi_ups_battery_get_property]
  · intro h
    cases psp <;> simp [rpi_ups_usb_charger_props] at h <;>
      simp [rpi_ups_usb_charger_get_property]

/-- Witness of C9: the key `POWER_SUPPLY_PROP_OTHER 7` on a stale cache. -/
theorem unsupported_key_witness :
    (POWER_SUPPLY_PROP_OTHER 7 ∉ rpi_ups_battery_props
      ∧ POWER_SUPPLY_PROP_OTHER 7 ∉ rpi_ups_usb_charger_props)
    ∧ ((POWER_SUPPLY_PROP_OTHER 7 ∉ rpi_ups_battery_props →
          rpi_ups_battery_get_property 250 ⟨0x2d, scenario_block, buf_of_list 6 [], 0, 0⟩ 9000
            (POWER_SUPPLY_PROP_OTHER 7) (.intval 3)
          = ⟨-EINVAL, .intval 3, ⟨0x2d, scenario_block, buf_of_list 6 [], 0, 0⟩⟩)
      ∧ (POWER_SUPPLY_PROP_OTHER 7 ∉ rpi_ups_usb_charger_props →
          rpi_ups_usb_charger_get_property ⟨0x2d, scenario_block, buf_of_list 6 [], 0, 0⟩
            (POWER_SUPPLY_PROP_OTHER 7) (.intval 3)
          = ⟨-EINVAL, .intval 3, ⟨0x2d, scenario_block, buf_of_list 6 [], 0, 0⟩⟩)) :=
  ⟨⟨by decide, by decide⟩,
   unsupported_key 250 ⟨0x2d, scenario_block, buf_of_list 6 [], 0, 0⟩ 9000
     (POWER_SUPPLY_PROP_OTHER 7) (.intval 3)⟩

/-! ## One iteration of the sampling loop -/

/-- C10: after one iteration of the loop, whatever the cache before and the
outcome of the three reads: the cached battery block is the 12 bytes read from
register 0x20 if that read returned a non-negative value and is unchanged
otherwise; the cached charger status is the byte read from register 0x02 if
that read succeeded and is unchanged otherwise; the cached charger block is the
6 bytes read from register 0x10 if that read succeeded and is unchanged
otherwise; the timestamp is the current time in either case. -/
theorem cycle_cache_update (data : rpi_ups_data) (low_counter : Int) (i : cycle_input) :
    let d := (rpi_ups_update_cycle data low_counter i).data
    d.battery_buf = (if 0 ≤ i.read_0x20.ret then i.read_0x20.buf else data.battery_buf)
    ∧ d.charger_status
        = (if 0 ≤ i.read_0x02.ret then i.read_0x02.buf 0 else data.charger_status)
    ∧ d.charger_buf = (if 0 ≤ i.read_0x10.ret then i.read_0x10.buf else data.charger_buf)
    ∧ d.last_update_jiffies = i.jiffies
    ∧ d.client_addr = data.client_addr := by
  intro d
  have hd : d = cache_after_reads data i := by
    simp only [d, rpi_ups_update_cycle]
    split_ifs <;> rfl
  rw [hd]
  unfold cache_after_reads
  by_cases h1 : 0 ≤ i.read_0x20.ret <;> by_cases h2 : 0 ≤ i.read_0x02.ret <;>
    by_cases h3 : 0 ≤ i.read_0x10.ret <;>
    (split_ifs <;> simp [h1, h2, h3])

/-! ## Lemmas on one iteration -/

theorem cycle_fire (data : rpi_ups_data) (c : Int) (i : cycle_input)
    (h : shutdown_condition (cache_after_reads data i).battery_buf)
    (h30 : cast_int (c + 1) ≥ 30) :
    rpi_ups_update_cycle data c i =
      { data := cache_after_reads data i, low_counter := cast_int (c + 1),
        capacity := le16 ((cache_after_reads data i).battery_buf 4)
          ((cache_after_reads data i).battery_buf 5),
        raw_current := cast_int16_t (le16 ((cache_after_reads data i).battery_buf 2)
          ((cache_after_reads data i).battery_buf 3)),
        voltage := le16 ((cache_after_reads data i).battery_buf 0)
          ((cache_after_reads data i).battery_buf 1),
        events := cycle_reads data.client_addr
          ++ [.pr_info_low_battery
                (le16 ((cache_after_reads data i).battery_buf 4)
                  ((cache_after_reads data i).battery_buf 5))
                (cast_int16_t (le16 ((cache_after_reads data i).battery_buf 2)
                  ((cache_after_reads data i).battery_buf 3)))]
          ++ shutdown_write data.client_addr i.write_0x01 ++ [.kernel_power_off],
        exit := true } := by
  unfold shutdown_condition at h
  unfold rpi_ups_update_cycle
  simp only []
  rw [if_pos h, if_pos h30]
  rfl

theorem cycle_count (data : rpi_ups_data) (c : Int) (i : cycle_input)
    (h : shutdown_condition (cache_after_reads data i).battery_buf)
    (h30 : ¬ cast_int (c + 1) ≥ 30) :
    rpi_ups_update_cycle data c i =
      { data := cache_after_reads data i, low_counter := cast_int (c + 1),
        capacity := le16 ((cache_after_reads data i).battery_buf 4)
          ((cache_after_reads data i).battery_buf 5),
        raw_current := cast_int16_t (le16 ((cache_after_reads data i).battery_buf 2)
          ((cache_after_reads data i).battery_buf 3)),
        voltage := le16 ((cache_after_reads data i).battery_buf 0)
          ((cache_after_reads data i).battery_buf 1),
        events := cycle_reads data.client_addr
          ++ [.pr_info_countdown (cast_int (60 - cast_int (2 * cast_int (c + 1)))),
              .msleep 1000],
        exit := false } := by
  unfold shutdown_condition at h
  unfold rpi_ups_update_cycle
  simp only []
  rw [if_pos h, if_neg h30]
  rfl

theorem cycle_reset (data : rpi_ups_data) (c : Int) (i : cycle_input)
    (h : ¬ shutdown_condition (cache_after_reads data i).battery_buf) :
    rpi_ups_update_cycle data c i =
      { data := cache_after_reads data i, low_counter := 0,
        capacity := le16 ((cache_after_reads data i).battery_buf 4)
          ((cache_after_reads data i).battery_buf 5),
        raw_current := cast_int16_t (le16 ((cache_after_reads data i).battery_buf 2)
          ((cache_after_reads data i).battery_buf 3)),
        voltage := le16 ((cache_after_reads data i).battery_buf 0)
          ((cache_after_reads data i).battery_buf 1),
        events := cycle_reads data.client_addr ++ [.msleep 1000],
        exit := false } := by
  unfold shutdown_condition at h
  unfold rpi_ups_update_cycle
  simp only []
  rw [if_neg h]
  rfl

/-- What every iteration satisfies, whatever branch it takes. -/
theorem cycle_facts (data : rpi_ups_data) (c : Int) (i : cycle_input) :
    let d := cache_after_reads data i
    let r := rpi_ups_update_cycle data c i
    r.data = d
    ∧ (low_battery r = true ↔ shutdown_condition d.battery_buf)
    ∧ r.low_counter = (if shutdown_condition d.battery_buf then cast_int (c + 1) else 0)
    ∧ (r.exit = true ↔ 30 ≤ r.low_counter)
    ∧ (30 ≤ r.low_counter →
        r.events = cycle_reads data.client_addr
          ++ [.pr_info_low_battery r.capacity r.raw_current]
          ++ shutdown_write data.client_addr i.write_0x01 ++ [.kernel_power_off])
    ∧ (¬ 30 ≤ r.low_counter →
        event.kernel_power_off ∉ r.events ∧ writes r.events = []
        ∧ transfers r.events = cycle_reads data.client_addr) := by
  intro d r
  by_cases h : shutdown_condition (cache_after_reads data i).battery_buf
  · have hc : (le16 ((cache_after_reads data i).battery_buf 4)
        ((cache_after_reads data i).battery_buf 5) ≤ 5
        ∧ cast_int16_t (le16 ((cache_after_reads data i).battery_buf 2)
            ((cache_after_reads data i).battery_buf 3)) < 50) := h
    by_cases h30 : cast_int (c + 1) ≥ 30
    · have hr := cycle_fire data c i h h30
      simp only [r, d, hr, if_pos h, low_battery]
      refine ⟨trivial, ?_, trivial, ?_, ?_, ?_⟩
      · simp [h, hc]
      · simp [h30]
      · intro _
        trivial
      · intro hn
        exact absurd h30 hn
    · have hr := cycle_count data c i h h30
      simp only [r, d, hr, if_pos h, low_battery]
      refine ⟨trivial, ?_, trivial, ?_, ?_, ?_⟩
      · simp [h, hc]
      · simp [h30]
      · intro hn
        exact absurd hn h30
      · intro _
        simp [cycle_reads, writes, transfers]
  · have hc : ¬ (le16 ((cache_after_reads data i).battery_buf 4)
        ((cache_after_reads data i).battery_buf 5) ≤ 5
        ∧ cast_int16_t (le16 ((cache_after_reads data i).battery_buf 2)
            ((cache_after_reads data i).battery_buf 3)) < 50) := h
    have hr := cycle_reset data c i h
    simp only [r, d, hr, if_neg h, low_battery]
    refine ⟨trivial, ?_, trivial, ?_, ?_, ?_⟩
    · simp [h, hc]
    · simp
    · intro hn
      omega
    · intro _
      simp [cycle_reads, writes, transfers]

/-! ## Lemmas on the loop -/

theorem cache_after_reads_addr (data : rpi_ups_data) (i : cycle_input) :
    (cache_after_reads data i).client_addr = data.client_addr := by
  unfold cache_after_reads
  simp only []
  split_ifs <;> rfl

theorem loop_nil (data : rpi_ups_data) (c : Int) :
    rpi_ups_update_thread_loop data c [] = { cycles := [], ret := none } := rfl

theorem loop_stop (data : rpi_ups_data) (c : Int) (i : cycle_input) (script : List cycle_input)
    (h : i.kthread_should_stop = true) :
    rpi_ups_update_thread_loop data c (i :: script) = { cycles := [], ret := some 0 } := by
  simp [rpi_ups_update_thread_loop, h]

theorem loop_exit (data : rpi_ups_data) (c : Int) (i : cycle_input) (script : List cycle_input)
    (h : i.kthread_should_stop = false) (he : (rpi_ups_update_cycle data c i).exit = true) :
    rpi_ups_update_thread_loop data c (i :: script)
      = { cycles := [rpi_ups_update_cycle data c i], ret := some 0 } := by
  simp [rpi_ups_update_thread_loop, h, he]

theorem loop_continue (data : rpi_ups_data) (c : Int) (i : cycle_input)
    (script : List cycle_input) (h : i.kthread_should_stop = false)
    (he : (rpi_ups_update_cycle data c i).exit = false) :
    rpi_ups_update_thread_loop data c (i :: script)
      = { cycles := rpi_ups_update_cycle data c i
            :: (rpi_ups_update_thread_loop (rpi_ups_update_cycle data c i).data
                  (rpi_ups_update_cycle data c i).low_counter script).cycles,
          ret := (rpi_ups_update_thread_loop (rpi_ups_update_cycle data c i).data
                  (rpi_ups_update_cycle data c i).low_counter script).ret } := by
  simp [rpi_ups_update_thread_loop, h, he]

/-- Every iteration of a run is an iteration of the loop body on the device
address the run started with. -/
theorem loop_cycles_are_cycles (script : List cycle_input) :
    ∀ (data : rpi_ups_data) (c : Int) (r : cycle_result),
      r ∈ (rpi_ups_update_thread_loop data c script).cycles →
      ∃ d c' i, r = rpi_ups_update_cycle d c' i ∧ d.client_addr = data.client_addr := by
  induction script with
  | nil =>
    intro data c r hr
    simp [loop_nil] at hr
  | cons i script ih =>
    intro data c r hr
    cases hs : i.kthread_should_stop with
    | true => simp [loop_stop data c i script hs] at hr
    | false =>
      cases he : (rpi_ups_update_cycle data c i).exit with
      | true =>
        simp only [loop_exit data c i script hs he, List.mem_singleton] at hr
        exact ⟨data, c, i, hr, rfl⟩
      | false =>
        simp only [loop_continue data c i script hs he, List.mem_cons] at hr
        rcases hr with hr | hr
        · exact ⟨data, c, i, hr, rfl⟩
        · obtain ⟨d, c', i', h1, h2⟩ := ih _ _ r hr
          refine ⟨d, c', i', h1, ?_⟩
          rw [h2, (cycle_facts data c i).1, cache_after_reads_addr]

/-- An iteration that leaves the loop is the last one, and the thread returns 0. -/
theorem loop_exit_last (script : List cycle_input) :
    ∀ (data : rpi_ups_data) (c : Int) (k : Nat) (r : cycle_result),
      (rpi_ups_update_thread_loop data c script).cycles[k]? = some r → r.exit = true →
      k + 1 = (rpi_ups_update_thread_loop data c script).cycles.length
        ∧ (rpi_ups_update_thread_loop data c script).ret = some 0 := by
  induction script with
  | nil =>
    intro data c k r hr
    simp [loop_nil] at hr
  | cons i script ih =>
    intro data c k r hr hx
    cases hs : i.kthread_should_stop with
    | true => simp [loop_stop data c i script hs] at hr
    | false =>
      cases he : (rpi_ups_update_cycle data c i).exit with
      | true =>
        rw [loop_exit data c i script hs he] at hr ⊢
        cases k with
        | zero => simp
        | succ k => simp at hr
      | false =>
        rw [loop_continue data c i script hs he] at hr ⊢
        cases k with
        | zero =>
          simp only [List.getElem?_cons_zero, Option.some.injEq] at hr
          rw [← hr, he] at hx
          exact absurd hx (by simp)
        | succ k =>
          simp only [List.getElem?_cons_succ] at hr
          obtain ⟨h1, h2⟩ := ih _ _ k r hr hx
          exact ⟨by simp [← h1], h2⟩

theorem append_split {α : Type} (p : α) (a t pre post : List α) (hp : p ∉ a)
    (h : a ++ t = pre ++ p :: post) : ∃ q, pre = a ++ q ∧ t = q ++ p :: post := by
  rcases List.append_eq_append_iff.1 h with ⟨q, h1, h2⟩ | ⟨q, h1, h2⟩
  · exact ⟨q, h1, h2⟩
  · cases q with
    | nil =>
      refine ⟨[], ?_, ?_⟩
      · simpa using h1.symm
      · simpa using h2.symm
    | cons x q =>
      simp only [List.cons_append, List.cons.injEq] at h2
      exact absurd (by rw [h1, h2.1]; simp) hp

theorem shutdown_calls_quiet (addr : Nat) (w cap cur : Int) :
    event.kernel_power_off ∉ cycle_reads addr ++ [event.pr_info_low_battery cap cur]
      ++ shutdown_write addr w := by
  unfold cycle_reads shutdown_write
  split_ifs <;> simp

/-- Nothing follows a power-off in the calls of a run, and no iteration before
the last one contains one. -/
theorem loop_trace (script : List cycle_input) :
    ∀ (data : rpi_ups_data) (c : Int) (pre post : List event),
      trace (rpi_ups_update_thread_loop data c script).cycles
        = pre ++ event.kernel_power_off :: post →
      post = [] ∧ event.kernel_power_off ∉ pre := by
  induction script with
  | nil =>
    intro data c pre post h
    simp [loop_nil, trace] at h
  | cons i script ih =>
    intro data c pre post h
    cases hs : i.kthread_should_stop with
    | true => simp [loop_stop data c i script hs, trace] at h
    | false =>
      have hf := cycle_facts data c i
      simp only [] at hf
      obtain ⟨-, -, -, hexit, hfire, hquiet⟩ := hf
      cases he : (rpi_ups_update_cycle data c i).exit with
      | true =>
        rw [loop_exit data c i script hs he] at h
        have h30 := hexit.1 he
        simp only [trace, List.append_nil, hfire h30] at h
        obtain ⟨q, h1, h2⟩ := append_split _ _ _ _ _ (shutdown_calls_quiet _ _ _ _) h
        cases q with
        | nil =>
          simp only [List.nil_append, List.cons.injEq, true_and] at h2
          refine ⟨h2.symm, ?_⟩
          rw [h1, List.append_nil]
          exact shutdown_calls_quiet _ _ _ _
        | cons x q =>
          simp only [List.cons_append, List.cons.injEq] at h2
          have := congrArg List.length h2.2
          simp at this
          omega
      | false =>
        rw [loop_continue data c i script hs he] at h
        have h30 : ¬ 30 ≤ (rpi_ups_update_cycle data c i).low_counter := by
          intro hh
          rw [hexit.2 hh] at he
          exact absurd he (by simp)
        obtain ⟨hno, -, -⟩ := hquiet h30
        simp only [trace] at h
        obtain ⟨q, h1, h2⟩ := append_split _ _ _ _ _ hno h
        obtain ⟨h3, h4⟩ := ih _ _ q post h2
        refine ⟨h3, ?_⟩
        rw [h1, List.mem_append]
        rintro (hh | hh)
        · exact hno hh
        · exact h4 hh

/-! ## The counter along a run -/

theorem counter_after_cons (c : Nat) (b : Bool) (l : List Bool) :
    counter_after c (b :: l) = counter_after (if b then c + 1 else 0) l := by
  simp [counter_after]

theorem counter_after_snoc (c : Nat) (b : Bool) (l : List Bool) :
    counter_after c (l ++ [b]) = if b then counter_after c l + 1 else 0 := by
  simp [counter_after, List.foldl_append]

theorem condition_seq_cons (data : rpi_ups_data) (i : cycle_input) (script : List cycle_input) :
    condition_seq data (i :: script)
      = decide (shutdown_condition (cache_after_reads data i).battery_buf)
          :: condition_seq (cache_after_reads data i) script := by
  have hf := cycle_facts data 0 i
  simp only [] at hf
  obtain ⟨h1, h2, -⟩ := hf
  simp only [condition_seq, h1, List.cons.injEq, and_true]
  by_cases h : shutdown_condition (cache_after_reads data i).battery_buf
  · rw [h2.2 h]
    simp [h]
  · have : low_battery (rpi_ups_update_cycle data 0 i) = false := by
      cases hb : low_battery (rpi_ups_update_cycle data 0 i) with
      | true => exact absurd (h2.1 hb) h
      | false => rfl
    rw [this]
    simp [h]

theorem condition_seq_length (script : List cycle_input) :
    ∀ data : rpi_ups_data, (condition_seq data script).length = script.length := by
  induction script with
  | nil => intro data; rfl
  | cons i script ih =>
    intro data
    rw [condition_seq_cons]
    simp [ih]

/-- The iterations a run makes when no stop is requested, and the counter after
each of them, from a counter below 30. -/
theorem loop_counters (script : List cycle_input) :
    ∀ (data : rpi_ups_data) (c : Nat), c < 30 → never_stopped script = true →
      (∀ k, k < (rpi_ups_update_thread_loop data c script).cycles.length ↔
          (k < script.length
            ∧ ∀ j, j < k → counter_after c ((condition_seq data script).take (j + 1)) < 30))
      ∧ (∀ k r, (rpi_ups_update_thread_loop data c script).cycles[k]? = some r →
          r.low_counter = ((counter_after c ((condition_seq data script).take (k + 1)) : Nat)
            : Int)) := by
  induction script with
  | nil =>
    intro data c _ _
    simp [loop_nil]
  | cons i script ih =>
    intro data c hc hs
    have hs1 : i.kthread_should_stop = false := by
      simp [never_stopped] at hs
      exact hs.1
    have hs2 : never_stopped script = true := by
      simp [never_stopped] at hs
      simpa [never_stopped] using hs.2
    have hf := cycle_facts data c i
    simp only [] at hf
    obtain ⟨hdata, -, hctr, hexit, -, -⟩ := hf
    rw [condition_seq_cons]
    generalize hb : decide (shutdown_condition (cache_after_reads data i).battery_buf) = b
    have hcast : cast_int ((c : Int) + 1) = ((c + 1 : Nat) : Int) := by
      rw [cast_int_eq _ (by omega) (by omega)]
      push_cast
      rfl
    have hctr' : (rpi_ups_update_cycle data c i).low_counter
        = (((if b then c + 1 else 0) : Nat) : Int) := by
      rw [hctr, ← hb]
      by_cases h : shutdown_condition (cache_after_reads data i).battery_buf
      · simp [h, hcast]
      · simp [h]
    have key : ∀ j, counter_after c
        ((b :: condition_seq (cache_after_reads data i) script).take (j + 1))
        = counter_after (if b then c + 1 else 0)
            ((condition_seq (cache_after_reads data i) script).take j) := by
      intro j
      rw [List.take_succ_cons, counter_after_cons]
    simp only [key]
    by_cases h30 : 30 ≤ (if b then c + 1 else 0)
    · have he : (rpi_ups_update_cycle data c i).exit = true := by
        rw [hexit, hctr']
        exact_mod_cast h30
      rw [loop_exit data c i script hs1 he]
      constructor
      · intro k
        constructor
        · intro hk
          simp only [List.length_singleton, Nat.lt_one_iff] at hk
          subst hk
          simp
        · rintro ⟨-, hk⟩
          cases k with
          | zero => simp
          | succ k =>
            have := hk 0 (by omega)
            simp [counter_after] at this
            omega
      · intro k r hr
        cases k with
        | zero =>
          simp only [List.getElem?_cons_zero, Option.some.injEq] at hr
          rw [← hr, hctr']
          simp [counter_after]
        | succ k => simp at hr
    · have he : (rpi_ups_update_cycle data c i).exit = false := by
        cases hx : (rpi_ups_update_cycle data c i).exit with
        | false => rfl
        | true =>
          have := hexit.1 hx
          rw [hctr'] at this
          exact absurd (by exact_mod_cast this) h30
      rw [loop_continue data c i script hs1 he]
      have hc' : (if b then c + 1 else 0) < 30 := by omega
      have ih' := ih (cache_after_reads data i) (if b then c + 1 else 0) hc' hs2
      rw [hdata, hctr']
      obtain ⟨ih1, ih2⟩ := ih'
      constructor
      · intro k
        cases k with
        | zero => simp
        | succ k =>
          simp only [List.length_cons, Nat.add_lt_add_iff_right]
          rw [ih1 k]
          constructor
          · rintro ⟨h1, h2⟩
            refine ⟨h1, ?_⟩
            intro j hj
            cases j with
            | zero => simpa [counter_after] using hc'
            | succ j => exact h2 j (by omega)
          · rintro ⟨h1, h2⟩
            exact ⟨h1, fun j hj => h2 (j + 1) (by omega)⟩
      · intro k r hr
        cases k with
        | zero =>
          simp only [List.getElem?_cons_zero, Option.some.injEq] at hr
          rw [← hr, hctr']
          simp [counter_after]
        | succ k =>
          simp only [List.getElem?_cons_succ] at hr
          exact ih2 k r hr

/-! ## Runs of true conditions -/

theorem run_length_snoc (l : List Bool) (b : Bool) :
    run_length (l ++ [b]) = if b then run_length l + 1 else 0 := by
  cases b <;> simp [run_length, List.takeWhile]

theorem counter_after_zero (l : List Bool) : counter_after 0 l = run_length l := by
  induction l using List.reverseRecOn with
  | nil => rfl
  | append_singleton l b ih => rw [counter_after_snoc, run_length_snoc, ih]

theorem run_length_ge_iff (l : List Bool) :
    ∀ n, n ≤ run_length l ↔
      (n ≤ l.length ∧ ∀ j, l.length - n ≤ j → j < l.length → l[j]? = some true) := by
  induction l using List.reverseRecOn with
  | nil =>
    intro n
    simp [run_length]
  | append_singleton l b ih =>
    intro n
    rw [run_length_snoc]
    cases b with
    | false =>
      simp only [Bool.false_eq_true, if_false, Nat.le_zero, List.length_append,
        List.length_singleton]
      constructor
      · intro h
        subst h
        refine ⟨by omega, ?_⟩
        intro j h1 h2
        omega
      · rintro ⟨h1, h2⟩
        by_contra hn
        have := h2 l.length (by omega) (by omega)
        simp at this
    | true =>
      simp only [if_true, List.length_append, List.length_singleton]
      cases n with
      | zero =>
        simp only [Nat.zero_le, Nat.sub_zero, true_and, true_iff]
        intro j h1 h2
        omega
      | succ n =>
        rw [Nat.add_le_add_iff_right, ih n, Nat.add_le_add_iff_right]
        constructor
        · rintro ⟨h1, h2⟩
          refine ⟨h1, ?_⟩
          intro j hj1 hj2
          by_cases hj : j < l.length
          · rw [List.getElem?_append_left hj]
            exact h2 j (by omega) hj
          · have : j = l.length := by omega
            subst this
            simp
        · rintro ⟨h1, h2⟩
          refine ⟨h1, ?_⟩
          intro j hj1 hj2
          have := h2 j (by omega) (by omega)
          rwa [List.getElem?_append_left hj2] at this

theorem thirty_true_iff (cs : List Bool) (k : Nat) :
    thirty_true cs k ↔ (k < cs.length ∧ 30 ≤ run_length (cs.take (k + 1))) := by
  unfold thirty_true
  constructor
  · rintro ⟨h1, h2⟩
    have hk : k < cs.length := by
      have := h2 k (by omega) (by omega)
      by_contra hn
      rw [List.getElem?_eq_none (by omega)] at this
      simp at this
    refine ⟨hk, ?_⟩
    rw [run_length_ge_iff]
    have hlen : (cs.take (k + 1)).length = k + 1 := by
      rw [List.length_take]
      omega
    rw [hlen]
    refine ⟨by omega, ?_⟩
    intro j hj1 hj2
    rw [List.getElem?_take_of_lt hj2]
    exact h2 j (by omega) (by omega)
  · rintro ⟨hk, h⟩
    rw [run_length_ge_iff] at h
    have hlen : (cs.take (k + 1)).length = k + 1 := by
      rw [List.length_take]
      omega
    rw [hlen] at h
    refine ⟨by omega, ?_⟩
    intro j hj1 hj2
    have := h.2 j (by omega) (by omega)
    rwa [List.getElem?_take_of_lt (by omega)] at this

/-! ## Firing along a run -/

theorem cycle_fires_iff (data : rpi_ups_data) (c : Int) (i : cycle_input) :
    event.kernel_power_off ∈ (rpi_ups_update_cycle data c i).events
      ↔ 30 ≤ (rpi_ups_update_cycle data c i).low_counter := by
  have hf := cycle_facts data c i
  simp only [] at hf
  obtain ⟨-, -, -, -, hfire, hquiet⟩ := hf
  constructor
  · intro h
    by_contra hn
    exact (hquiet hn).1 h
  · intro h
    rw [hfire h]
    simp

theorem events_at_some (rs : List cycle_result) (k : Nat) (r : cycle_result)
    (h : rs[k]? = some r) : events_at rs k = r.events ∧ counter_at rs k = r.low_counter := by
  simp [events_at, counter_at, h]

theorem events_at_none (rs : List cycle_result) (k : Nat) (h : rs.length ≤ k) :
    events_at rs k = [] ∧ counter_at rs k = 0 := by
  simp [events_at, counter_at, List.getElem?_eq_none h]

/-- In a run, power-off is among the calls of an iteration exactly when the
counter after it is at least 30. -/
theorem fires_at_iff_counter (data : rpi_ups_data) (c : Int) (script : List cycle_input)
    (k : Nat) :
    fires_at (rpi_ups_update_thread_loop data c script).cycles k
      ↔ 30 ≤ counter_at (rpi_ups_update_thread_loop data c script).cycles k := by
  unfold fires_at
  by_cases hk : k < (rpi_ups_update_thread_loop data c script).cycles.length
  · have hget : (rpi_ups_update_thread_loop data c script).cycles[k]?
        = some ((rpi_ups_update_thread_loop data c script).cycles[k]) :=
      List.getElem?_eq_getElem hk
    obtain ⟨h1, h2⟩ := events_at_some _ _ _ hget
    rw [h1, h2]
    obtain ⟨d, c', i, hr, -⟩ := loop_cycles_are_cycles script data c _
      (List.getElem_mem hk)
    rw [hr]
    exact cycle_fires_iff d c' i
  · obtain ⟨h1, h2⟩ := events_at_none (rpi_ups_update_thread_loop data c script).cycles k
      (by omega)
    rw [h1, h2]
    simp

theorem mem_trace (rs : List cycle_result) (e : event) :
    e ∈ trace rs ↔ ∃ r, r ∈ rs ∧ e ∈ r.events := by
  induction rs with
  | nil => simp [trace]
  | cons r rs ih => simp [trace, ih]

theorem trace_count (data : rpi_ups_data) (c : Int) (script : List cycle_input) :
    (trace (rpi_ups_update_thread_loop data c script).cycles).count event.kernel_power_off
      = if event.kernel_power_off ∈ trace (rpi_ups_update_thread_loop data c script).cycles
        then 1 else 0 := by
  by_cases h : event.kernel_power_off ∈ trace (rpi_ups_update_thread_loop data c script).cycles
  · rw [if_pos h]
    obtain ⟨pre, post, hsplit⟩ := List.append_of_mem h
    obtain ⟨h1, h2⟩ := loop_trace script data c pre post hsplit
    rw [hsplit, h1, List.count_append, List.count_eq_zero_of_not_mem h2]
    simp
  · rw [if_neg h, List.count_eq_zero_of_not_mem h]

theorem fires_at_lt (rs : List cycle_result) (k : Nat) (h : fires_at rs k) : k < rs.length := by
  by_contra hn
  unfold fires_at at h
  rw [(events_at_none rs k (by omega)).1] at h
  simp at h

theorem fires_at_mem_trace (rs : List cycle_result) (k : Nat) (h : fires_at rs k) :
    event.kernel_power_off ∈ trace rs := by
  have hk := fires_at_lt rs k h
  unfold fires_at at h
  rw [(events_at_some rs k _ (List.getElem?_eq_getElem hk)).1] at h
  exact (mem_trace rs _).2 ⟨_, List.getElem_mem hk, h⟩

set_option maxRecDepth 100000 in
theorem script_fire_index (k : Nat) :
    (k < 60
      ∧ (∀ j, j < k → counter_after 0
          ((List.replicate 29 true ++ false :: List.replicate 30 true).take (j + 1)) < 30)
      ∧ 30 ≤ counter_after 0
          ((List.replicate 29 true ++ false :: List.replicate 30 true).take (k + 1)))
    ↔ k = 59 := by
  constructor
  · rintro ⟨h1, h2, h3⟩
    have key : ∀ k, k < 60 →
        30 ≤ counter_after 0
          ((List.replicate 29 true ++ false :: List.replicate 30 true).take (k + 1)) →
        k = 59 := by
      decide
    exact key k h1 h3
  · intro h
    subst h
    decide

/-- The iterations of a run from counter 0 with no stop request, in terms of the
counter rule: which exist, what the counter is after each, and which fire. -/
theorem thread_counters (data : rpi_ups_data) (script : List cycle_input)
    (hrun : never_stopped script = true) (k : Nat) :
    (k < (rpi_ups_update_thread data script).cycles.length ↔
        (k < script.length
          ∧ ∀ j, j < k → counter_after 0 ((condition_seq data script).take (j + 1)) < 30))
    ∧ (k < (rpi_ups_update_thread data script).cycles.length →
        counter_at (rpi_ups_update_thread data script).cycles k
          = ((counter_after 0 ((condition_seq data script).take (k + 1)) : Nat) : Int))
    ∧ (fires_at (rpi_ups_update_thread data script).cycles k ↔
        (k < script.length
          ∧ (∀ j, j < k → counter_after 0 ((condition_seq data script).take (j + 1)) < 30)
          ∧ 30 ≤ counter_after 0 ((condition_seq data script).take (k + 1)))) := by
  obtain ⟨hA, hB⟩ := loop_counters script data 0 (by omega) hrun
  have hC : k < (rpi_ups_update_thread data script).cycles.length →
      counter_at (rpi_ups_update_thread data script).cycles k
        = ((counter_after 0 ((condition_seq data script).take (k + 1)) : Nat) : Int) := by
    intro hk
    have hget := List.getElem?_eq_getElem hk
    rw [(events_at_some _ k _ hget).2]
    exact hB k _ hget
  refine ⟨hA k, hC, ?_⟩
  constructor
  · intro hf
    have hk := fires_at_lt _ k hf
    have h30 := (fires_at_iff_counter data 0 script k).1 hf
    rw [show (rpi_ups_update_thread_loop data 0 script) = rpi_ups_update_thread data script
      from rfl, hC hk] at h30
    obtain ⟨h1, h2⟩ := (hA k).1 hk
    exact ⟨h1, h2, by exact_mod_cast h30⟩
  · rintro ⟨h1, h2, h3⟩
    have hk := (hA k).2 ⟨h1, h2⟩
    apply (fires_at_iff_counter data 0 script k).2
    rw [show (rpi_ups_update_thread_loop data 0 script) = rpi_ups_update_thread data script
      from rfl, hC hk]
    exact_mod_cast h3

/-- Below the length of the script, "the counter stayed under 30 so far" and
"no power-off so far" are the same. -/
theorem no_fire_iff (data : rpi_ups_data) (script : List cycle_input)
    (hrun : never_stopped script = true) (k : Nat) (hk : k ≤ script.length) :
    (∀ j, j < k → counter_after 0 ((condition_seq data script).take (j + 1)) < 30)
      ↔ (∀ j, j < k → ¬ fires_at (rpi_ups_update_thread data script).cycles j) := by
  constructor
  · intro h j hj hf
    have := ((thread_counters data script hrun j).2.2.1 hf).2.2
    have := h j hj
    omega
  · intro h j
    induction j using Nat.strong_induction_on with
    | _ j ih =>
      intro hj
      by_contra hn
      apply h j hj
      exact (thread_counters data script hrun j).2.2.2
        ⟨by omega, fun j' hj' => ih j' hj' (by omega), by omega⟩

/-- The condition sequence of a script lists what the iterations of a run
evaluate. -/
theorem loop_conditions (script : List cycle_input) :
    ∀ (data : rpi_ups_data) (c : Int) (k : Nat) (r : cycle_result),
      (rpi_ups_update_thread_loop data c script).cycles[k]? = some r →
      (condition_seq data script)[k]? = some (low_battery r) := by
  induction script with
  | nil =>
    intro data c k r hr
    simp [loop_nil] at hr
  | cons i script ih =>
    intro data c k r hr
    have hf := cycle_facts data c i
    simp only [] at hf
    obtain ⟨hdata, hlow, -⟩ := hf
    have hb : low_battery (rpi_ups_update_cycle data c i)
        = decide (shutdown_condition (cache_after_reads data i).battery_buf) := by
      by_cases h : shutdown_condition (cache_after_reads data i).battery_buf
      · rw [hlow.2 h]
        simp [h]
      · cases hx : low_battery (rpi_ups_update_cycle data c i) with
        | true => exact absurd (hlow.1 hx) h
        | false => simp [h]
    rw [condition_seq_cons]
    cases hs : i.kthread_should_stop with
    | true => simp [loop_stop data c i script hs] at hr
    | false =>
      cases he : (rpi_ups_update_cycle data c i).exit with
      | true =>
        rw [loop_exit data c i script hs he] at hr
        cases k with
        | zero =>
          simp only [List.getElem?_cons_zero, Option.some.injEq] at hr
          rw [← hr, hb]
          simp
        | succ k => simp at hr
      | false =>
        rw [loop_continue data c i script hs he] at hr
        cases k with
        | zero =>
          simp only [List.getElem?_cons_zero, Option.some.injEq] at hr
          rw [← hr, hb]
          simp
        | succ k =>
          simp only [List.getElem?_cons_succ] at hr ⊢
          rw [hdata] at hr
          exact ih _ _ k r hr

/-! ## The shutdown policy -/

/-- C2: in a run of `rpi_ups_update_thread` in which no stop is requested, with
`cs` the low-battery condition evaluated in each cycle: the loop iterates as
long as power-off has not fired, and `cs` lists what the cycles of the run
evaluate; the counter after a cycle is the length of
the run of consecutive condition-true cycles ending at that cycle (0 after a
condition-false cycle); power-off fires at a cycle if and only if that cycle
and the 29 cycles before it were all condition-true and power-off has not
fired earlier. For the script of 29 true, 1 false and 30 true cycles,
power-off fires at the last cycle of the script (the 60th cycle, index 59) and
at no other, and is invoked once in the whole run. -/
theorem shutdown_debounce (data : rpi_ups_data) (script : List cycle_input)
    (hrun : never_stopped script = true) :
    let cs := condition_seq data script
    let rs := (rpi_ups_update_thread data script).cycles
    (∀ k, k < rs.length ↔ (k < script.length ∧ ∀ j, j < k → ¬ fires_at rs j))
    ∧ (∀ (k : Nat) (r : cycle_result), rs[k]? = some r → cs[k]? = some (low_battery r))
    ∧ (∀ k, k < rs.length → counter_at rs k = ((run_length (cs.take (k + 1)) : Nat) : Int))
    ∧ (∀ k, k < rs.length → cs[k]? = some false → counter_at rs k = 0)
    ∧ (∀ k, fires_at rs k ↔ (thirty_true cs k ∧ ∀ j, j < k → ¬ fires_at rs j))
    ∧ (cs = List.replicate 29 true ++ false :: List.replicate 30 true →
        (∀ k, fires_at rs k ↔ k = 59)
        ∧ (∀ k, k < 29 → ¬ fires_at rs k)
        ∧ (trace rs).count event.kernel_power_off = 1) := by
  intro cs rs
  have hT := thread_counters data script hrun
  have hlen : cs.length = script.length := condition_seq_length script data
  refine ⟨?_, loop_conditions script data 0, ?_, ?_, ?_, ?_⟩
  · intro k
    rw [(hT k).1]
    constructor
    · rintro ⟨h1, h2⟩
      exact ⟨h1, (no_fire_iff data script hrun k (by omega)).1 h2⟩
    · rintro ⟨h1, h2⟩
      exact ⟨h1, (no_fire_iff data script hrun k (by omega)).2 h2⟩
  · intro k hk
    rw [(hT k).2.1 hk, counter_after_zero]
  · intro k hk hfalse
    rw [(hT k).2.1 hk, counter_after_zero, List.take_succ, hfalse]
    simp [run_length_snoc]
  · intro k
    rw [(hT k).2.2, thirty_true_iff, hlen, ← counter_after_zero]
    constructor
    · rintro ⟨h1, h2, h3⟩
      exact ⟨⟨h1, h3⟩, (no_fire_iff data script hrun k (by omega)).1 h2⟩
    · rintro ⟨⟨h1, h3⟩, h2⟩
      exact ⟨h1, (no_fire_iff data script hrun k (by omega)).2 h2, h3⟩
  · intro hcs
    have hn : script.length = 60 := by
      rw [← hlen, hcs]
      simp
    have hfire : ∀ k, fires_at rs k ↔ k = 59 := by
      intro k
      rw [(hT k).2.2, hn]
      simp only [cs] at hcs
      rw [hcs]
      exact script_fire_index k
    refine ⟨hfire, ?_, ?_⟩
    · intro k hk hf
      have := (hfire k).1 hf
      omega
    · have hmem := fires_at_mem_trace rs 59 ((hfire 59).2 rfl)
      have hcount : (trace rs).count event.kernel_power_off
          = if event.kernel_power_off ∈ trace rs then 1 else 0 := trace_count data 0 script
      rw [if_pos hmem] at hcount
      exact hcount

set_option maxRecDepth 100000 in
/-- Witness of C2: the scripted run of 29 low readings, one good reading and 30
low readings, from the zero-initialised cache. -/
theorem shutdown_debounce_witness :
    never_stopped script_29_1_30 = true
    ∧ condition_seq cache_zero script_29_1_30
        = List.replicate 29 true ++ false :: List.replicate 30 true
    ∧ (rpi_ups_update_thread cache_zero script_29_1_30).cycles.length = 60
    ∧ (∀ k, fires_at (rpi_ups_update_thread cache_zero script_29_1_30).cycles k ↔ k = 59)
    ∧ (trace (rpi_ups_update_thread cache_zero script_29_1_30).cycles).count
        event.kernel_power_off = 1 :=
  ⟨by decide, by decide, by decide,
   ((shutdown_debounce cache_zero script_29_1_30 (by decide)).2.2.2.2.2 (by decide)).1,
   ((shutdown_debounce cache_zero script_29_1_30 (by decide)).2.2.2.2.2 (by decide)).2.2⟩

theorem shutdown_write_writes (addr : Nat) (w cap cur : Int) :
    writes (cycle_reads addr ++ [event.pr_info_low_battery cap cur] ++ shutdown_write addr w
        ++ [event.kernel_power_off])
      = if addr = 0x2d then [event.i2c_smbus_write_byte_data 0x2d 0x01 0x55] else [] := by
  unfold cycle_reads shutdown_write writes
  by_cases h : addr = 0x2d
  · subst h
    by_cases hw : w < 0 <;> simp [hw]
  · simp [h]

/-- The calls of a firing iteration of a run, and where it stands in the run. -/
theorem fires_at_events (data : rpi_ups_data) (script : List cycle_input) (k : Nat)
    (h : 30 ≤ counter_at (rpi_ups_update_thread data script).cycles k) :
    (∃ cap cur w, events_at (rpi_ups_update_thread data script).cycles k
        = cycle_reads data.client_addr ++ [event.pr_info_low_battery cap cur]
            ++ shutdown_write data.client_addr w ++ [event.kernel_power_off])
    ∧ k + 1 = (rpi_ups_update_thread data script).cycles.length
    ∧ (rpi_ups_update_thread data script).ret = some 0 := by
  have hk : k < (rpi_ups_update_thread data script).cycles.length := by
    by_contra hn
    rw [(events_at_none (rpi_ups_update_thread data script).cycles k (by omega)).2] at h
    omega
  have hget := List.getElem?_eq_getElem hk
  obtain ⟨he, hc⟩ := events_at_some _ k _ hget
  rw [he]
  rw [hc] at h
  obtain ⟨d, c', i, hr, haddr⟩ := loop_cycles_are_cycles script data 0 _ (List.getElem_mem hk)
  have hf := cycle_facts d c' i
  simp only [] at hf
  obtain ⟨-, -, -, hexit, hfire, -⟩ := hf
  have hr' : (rpi_ups_update_thread data script).cycles[k] = rpi_ups_update_cycle d c' i := hr
  rw [hr'] at h hget ⊢
  refine ⟨⟨_, _, _, by rw [hfire h, haddr]⟩, ?_⟩
  exact loop_exit_last script data 0 k _ hget (hexit.2 h)

/-- C3: in a run of `rpi_ups_update_thread`, on the cycle in which the shutdown
policy fires (power-off is invoked), a register write is issued if and only if
the client's device address is 0x2d; when it is, the writes of that cycle are
exactly one write of value 0x55 to register 0x01, and when it is not, the
cycle issues no write at all. -/
theorem protective_write_gating (data : rpi_ups_data) (script : List cycle_input) (k : Nat)
    (hfire : fires_at (rpi_ups_update_thread data script).cycles k) :
    (writes (events_at (rpi_ups_update_thread data script).cycles k) ≠ []
        ↔ data.client_addr = 0x2d)
    ∧ (data.client_addr = 0x2d →
        writes (events_at (rpi_ups_update_thread data script).cycles k)
          = [event.i2c_smbus_write_byte_data 0x2d 0x01 0x55])
    ∧ (data.client_addr ≠ 0x2d →
        writes (events_at (rpi_ups_update_thread data script).cycles k) = []) := by
  have h30 := (fires_at_iff_counter data 0 script k).1 hfire
  obtain ⟨⟨cap, cur, w, hev⟩, -, -⟩ := fires_at_events data script k h30
  rw [hev, shutdown_write_writes]
  by_cases h : data.client_addr = 0x2d <;> simp [h]

set_option maxRecDepth 100000 in
/-- Witness of C3: thirty low readings on a device at address 0x2d. -/
theorem protective_write_gating_witness :
    fires_at (rpi_ups_update_thread cache_zero (List.replicate 30 answers_low)).cycles 29
    ∧ cache_zero.client_addr = 0x2d
    ∧ writes (events_at (rpi_ups_update_thread cache_zero
          (List.replicate 30 answers_low)).cycles 29)
        = [event.i2c_smbus_write_byte_data 0x2d 0x01 0x55] :=
  ⟨by decide, rfl,
   (protective_write_gating cache_zero (List.replicate 30 answers_low) 29 (by decide)).2.1 rfl⟩

/-- C4: in a run of `rpi_ups_update_thread`, whatever the device address and
the outcome of the protective write: on the cycle in which the counter reaches
30, host power-off is invoked exactly once, as the last call of the cycle;
that cycle is the last iteration of the run and the thread returns 0; over
the whole run power-off is invoked at most once and no call of any kind
(register read or write, power-off) follows it. -/
theorem power_off_once (data : rpi_ups_data) (script : List cycle_input) :
    (∀ k, 30 ≤ counter_at (rpi_ups_update_thread data script).cycles k →
        (events_at (rpi_ups_update_thread data script).cycles k).count event.kernel_power_off = 1
        ∧ (events_at (rpi_ups_update_thread data script).cycles k).getLast?
            = some event.kernel_power_off
        ∧ k + 1 = (rpi_ups_update_thread data script).cycles.length
        ∧ (rpi_ups_update_thread data script).ret = some 0)
    ∧ (trace (rpi_ups_update_thread data script).cycles).count event.kernel_power_off ≤ 1
    ∧ (∀ pre post, trace (rpi_ups_update_thread data script).cycles
          = pre ++ event.kernel_power_off :: post → post = []) := by
  refine ⟨?_, ?_, ?_⟩
  · intro k h
    obtain ⟨⟨cap, cur, w, hev⟩, hlast, hret⟩ := fires_at_events data script k h
    refine ⟨?_, ?_, hlast, hret⟩
    · rw [hev, List.count_append,
        List.count_eq_zero_of_not_mem (shutdown_calls_quiet _ _ _ _)]
      simp
    · rw [hev, List.getLast?_append]
      simp
  · have := trace_count data 0 script
    have hle : (trace (rpi_ups_update_thread data script).cycles).count event.kernel_power_off
        = if event.kernel_power_off ∈ trace (rpi_ups_update_thread data script).cycles
          then 1 else 0 := this
    rw [hle]
    split <;> omega
  · intro pre post h
    exact (loop_trace script data 0 pre post h).1

set_option maxRecDepth 100000 in
/-- Witness of C4: thirty low readings, on a device whose address is not 0x2d. -/
theorem power_off_once_witness :
    30 ≤ counter_at (rpi_ups_update_thread { cache_zero with client_addr := 0x40 }
        (List.replicate 30 answers_low)).cycles 29
    ∧ (events_at (rpi_ups_update_thread { cache_zero with client_addr := 0x40 }
        (List.replicate 30 answers_low)).cycles 29).count event.kernel_power_off = 1
    ∧ 29 + 1 = (rpi_ups_update_thread { cache_zero with client_addr := 0x40 }
        (List.replicate 30 answers_low)).cycles.length :=
  ⟨by decide,
   ((power_off_once { cache_zero with client_addr := 0x40 }
      (List.replicate 30 answers_low)).1 29 (by decide)).1,
   ((power_off_once { cache_zero with client_addr := 0x40 }
      (List.replicate 30 answers_low)).1 29 (by decide)).2.2.1⟩

/-! ## Read failures and the shutdown condition -/

theorem shutdown_condition_iff (b : Fin 12 → u8) :
    shutdown_condition b ↔ capacity_le_5_and_current_lt_50 b := by
  unfold shutdown_condition capacity_le_5_and_current_lt_50
  rw [le16_eq, le16_eq, raw_current_u16le]

theorem cache_after_reads_battery (data : rpi_ups_data) (i : cycle_input) :
    (cache_after_reads data i).battery_buf
      = if 0 ≤ i.read_0x20.ret then i.read_0x20.buf else data.battery_buf := by
  unfold cache_after_reads
  simp only []
  by_cases h1 : 0 ≤ i.read_0x20.ret <;> by_cases h2 : 0 ≤ i.read_0x02.ret <;>
    by_cases h3 : 0 ≤ i.read_0x10.ret <;> simp [h1, h2, h3]

/-- C11: in every cycle of `rpi_ups_update_thread`, whatever the three reads
return: the condition is evaluated on the battery block as cached after the
update step (the block just read when the 0x20 read returned a non-negative
value, the previously cached block otherwise); the counter becomes
`low_counter + 1` when that block has capacity at most 5 and current below 50,
and 0 otherwise, so a failed battery read increments the counter exactly when
the previously cached block satisfies the condition; the loop is left only
when the counter reaches 30, never because a read failed; and the outcomes of
the 0x02 and 0x10 reads change neither the counter nor the decision to leave
the loop. -/
theorem read_failure_tolerated (data : rpi_ups_data) (low_counter : Int) (i : cycle_input) :
    let b := if 0 ≤ i.read_0x20.ret then i.read_0x20.buf else data.battery_buf
    let r := rpi_ups_update_cycle data low_counter i
    r.data.battery_buf = b
    ∧ (low_battery r = true ↔ capacity_le_5_and_current_lt_50 b)
    ∧ r.low_counter
        = (if capacity_le_5_and_current_lt_50 b then cast_int (low_counter + 1) else 0)
    ∧ (i.read_0x20.ret < 0 →
        r.low_counter = (if capacity_le_5_and_current_lt_50 data.battery_buf then
                            cast_int (low_counter + 1) else 0))
    ∧ (r.exit = true ↔ 30 ≤ r.low_counter)
    ∧ (∀ (s02 : i2c_read 1) (s10 : i2c_read 6),
        (rpi_ups_update_cycle data low_counter
            { i with read_0x02 := s02, read_0x10 := s10 }).low_counter = r.low_counter
        ∧ (rpi_ups_update_cycle data low_counter
            { i with read_0x02 := s02, read_0x10 := s10 }).exit = r.exit) := by
  intro b r
  have hf := cycle_facts data low_counter i
  simp only [] at hf
  obtain ⟨hdata, hlow, hctr, hexit, -, -⟩ := hf
  have hb : (cache_after_reads data i).battery_buf = b := cache_after_reads_battery data i
  rw [hb] at hlow hctr
  have hctr' : r.low_counter
      = (if capacity_le_5_and_current_lt_50 b then cast_int (low_counter + 1) else 0) := by
    rw [show r.low_counter = _ from hctr]
    by_cases h : shutdown_condition b
    · rw [if_pos h, if_pos ((shutdown_condition_iff b).1 h)]
    · rw [if_neg h, if_neg (fun h' => h ((shutdown_condition_iff b).2 h'))]
  refine ⟨?_, ?_, hctr', ?_, hexit, ?_⟩
  · rw [show r.data = _ from hdata, hb]
  · rw [← shutdown_condition_iff]
    exact hlow
  · intro hfail
    have : b = data.battery_buf := by
      simp only [b]
      rw [if_neg (by omega)]
    rw [hctr', this]
  · intro s02 s10
    have hf' := cycle_facts data low_counter { i with read_0x02 := s02, read_0x10 := s10 }
    simp only [] at hf'
    obtain ⟨-, -, hctr2, hexit2, -, -⟩ := hf'
    have hb2 : (cache_after_reads data { i with read_0x02 := s02, read_0x10 := s10 }).battery_buf
        = b := cache_after_reads_battery data _
    rw [hb2] at hctr2
    have hc : (rpi_ups_update_cycle data low_counter
        { i with read_0x02 := s02, read_0x10 := s10 }).low_counter = r.low_counter := by
      rw [hctr2]
      exact hctr.symm
    refine ⟨hc, ?_⟩
    have h1 := hexit2
    rw [hc] at h1
    cases hx : (rpi_ups_update_cycle data low_counter
        { i with read_0x02 := s02, read_0x10 := s10 }).exit with
    | true => exact ((hexit.2 (h1.1 hx))).symm
    | false =>
      cases hy : r.exit with
      | false => rfl
      | true =>
        have := h1.2 (hexit.1 hy)
        rw [hx] at this
        exact absurd this (by simp)

/-- Witness of C11: a cycle with all reads failing on the zero cache, counter 7. -/
theorem read_failure_tolerated_witness :
    (answers_failing 250).read_0x20.ret < 0
    ∧ (rpi_ups_update_cycle cache_zero 7 (answers_failing 250)).low_counter
        = (if capacity_le_5_and_current_lt_50 cache_zero.battery_buf then
              cast_int (7 + 1) else 0) :=
  ⟨by decide,
   (read_failure_tolerated cache_zero 7 (answers_failing 250)).2.2.2.1 (by decide)⟩

/-- C17: in every cycle of `rpi_ups_update_thread`, with `b` the battery block
cached when the condition is evaluated, the test of line 117 takes its true
branch exactly when the unsigned 16-bit little-endian value of bytes 4-5 is at
most 5 and the signed 16-bit little-endian value of bytes 2-3 is below 50, and
every block `b` can be the cached one. The branch taken is read off the code's
own results: on the true branch the counter becomes `low_counter + 1` and the
cycle logs a low-battery message, on the false branch the counter is reset to
0, the loop is not left, and the calls are the three reads and the sleep only.
Hence with capacity at most 5 the condition is true for every negative current
and for every current from 0 to 49, and it is false whenever capacity is at
least 6 or current is at least 50. -/
theorem shutdown_condition_decoding (data : rpi_ups_data) (low_counter : Int)
    (i : cycle_input) :
    let r := rpi_ups_update_cycle data low_counter i
    let capacity := u16le (r.data.battery_buf 4) (r.data.battery_buf 5)
    let current := s16 (u16le (r.data.battery_buf 2) (r.data.battery_buf 3))
    r.capacity = capacity ∧ r.raw_current = current
    ∧ (low_battery r = true ↔ (capacity ≤ 5 ∧ current < 50))
    ∧ (capacity ≤ 5 → current < 0 → low_battery r = true)
    ∧ (capacity ≤ 5 → 0 ≤ current → current ≤ 49 → low_battery r = true)
    ∧ (6 ≤ capacity ∨ 50 ≤ current → low_battery r = false)
    ∧ (∀ b : Fin 12 → u8,
        (rpi_ups_update_cycle data low_counter
            { i with read_0x20 := { ret := 12, buf := b } }).data.battery_buf = b)
    ∧ r.low_counter = (if capacity ≤ 5 ∧ current < 50 then cast_int (low_counter + 1) else 0)
    ∧ ((capacity ≤ 5 ∧ current < 50)
        ↔ r.events ≠ cycle_reads data.client_addr ++ [.msleep 1000])
    ∧ (capacity ≤ 5 → current < 0 →
        r.low_counter = cast_int (low_counter + 1)
        ∧ r.events ≠ cycle_reads data.client_addr ++ [.msleep 1000])
    ∧ (capacity ≤ 5 → 0 ≤ current → current ≤ 49 →
        r.low_counter = cast_int (low_counter + 1)
        ∧ r.events ≠ cycle_reads data.client_addr ++ [.msleep 1000])
    ∧ (6 ≤ capacity ∨ 50 ≤ current →
        r.low_counter = 0 ∧ r.exit = false
        ∧ r.events = cycle_reads data.client_addr ++ [.msleep 1000]) := by
  intro r capacity current
  have hcap : r.capacity = capacity := by
    simp only [r, capacity, rpi_ups_update_cycle]
    split_ifs <;> simp only [le16_eq]
  have hcur : r.raw_current = current := by
    simp only [r, current, rpi_ups_update_cycle]
    split_ifs <;> simp only [le16_eq, raw_current_u16le]
  have hiff : low_battery r = true ↔ (capacity ≤ 5 ∧ current < 50) := by
    unfold low_battery
    rw [hcap, hcur]
    simp
  have hdata : r.data = cache_after_reads data i := (cycle_facts data low_counter i).1
  have hsc : shutdown_condition (cache_after_reads data i).battery_buf
      ↔ (capacity ≤ 5 ∧ current < 50) := by
    rw [shutdown_condition_iff]
    simp only [capacity, current, hdata]
    rfl
  have hctr : r.low_counter
      = (if capacity ≤ 5 ∧ current < 50 then cast_int (low_counter + 1) else 0) := by
    have h := (cycle_facts data low_counter i).2.2.1
    by_cases hc : capacity ≤ 5 ∧ current < 50
    · rw [if_pos hc]
      rw [if_pos (hsc.2 hc)] at h
      exact h
    · rw [if_neg hc]
      rw [if_neg (fun h' => hc (hsc.1 h'))] at h
      exact h
  have hev : (capacity ≤ 5 ∧ current < 50)
      ↔ r.events ≠ cycle_reads data.client_addr ++ [.msleep 1000] := by
    constructor
    · intro hc
      have hs := hsc.2 hc
      by_cases h30 : cast_int (low_counter + 1) ≥ 30
      · simp only [r]
        rw [cycle_fire data low_counter i hs h30]
        intro h
        have := congrArg List.length h
        simp [cycle_reads, shutdown_write] at this
      · simp only [r]
        rw [cycle_count data low_counter i hs h30]
        intro h
        have := congrArg List.length h
        simp [cycle_reads] at this
    · intro hne
      by_contra hc
      apply hne
      simp only [r]
      rw [cycle_reset data low_counter i (fun h' => hc (hsc.1 h'))]
  have hreset : ¬ (capacity ≤ 5 ∧ current < 50) →
      r.low_counter = 0 ∧ r.exit = false
      ∧ r.events = cycle_reads data.client_addr ++ [.msleep 1000] := by
    intro hc
    have hs : ¬ shutdown_condition (cache_after_reads data i).battery_buf :=
      fun h' => hc (hsc.1 h')
    simp only [r]
    rw [cycle_reset data low_counter i hs]
    exact ⟨rfl, rfl, rfl⟩
  refine ⟨hcap, hcur, hiff, ?_, ?_, ?_, ?_, hctr, hev, ?_, ?_, ?_⟩
  · intro h1 h2
    exact hiff.2 ⟨h1, by omega⟩
  · intro h1 _ h3
    exact hiff.2 ⟨h1, by omega⟩
  · intro h
    cases hx : low_battery r with
    | false => rfl
    | true =>
      have := hiff.1 hx
      omega
  · intro b
    rw [(cycle_facts data low_counter _).1, cache_after_reads_battery]
    simp
  · intro h1 h2
    have hc : capacity ≤ 5 ∧ current < 50 := ⟨h1, by omega⟩
    exact ⟨by rw [hctr, if_pos hc], hev.1 hc⟩
  · intro h1 _ h3
    have hc : capacity ≤ 5 ∧ current < 50 := ⟨h1, by omega⟩
    exact ⟨by rw [hctr, if_pos hc], hev.1 hc⟩
  · intro h
    exact hreset (by omega)

/-- Witness of C17: from counter 7, capacity 5 % with current 49 mA and with
current -200 mA count to 8; capacity 6 % with current -200 mA resets to 0;
from counter 29, capacity 5 % with current 50 mA resets to 0 and does not leave
the loop. -/
theorem shutdown_condition_decoding_witness :
    ((rpi_ups_update_cycle cache_zero 7 (answers (battery_read 49 0 5 0))).low_counter
        = cast_int (7 + 1)
      ∧ (rpi_ups_update_cycle cache_zero 7 (answers (battery_read 49 0 5 0))).events
        ≠ cycle_reads cache_zero.client_addr ++ [.msleep 1000])
    ∧ ((rpi_ups_update_cycle cache_zero 7 (answers (battery_read 0x38 0xFF 5 0))).low_counter
        = cast_int (7 + 1)
      ∧ (rpi_ups_update_cycle cache_zero 7 (answers (battery_read 0x38 0xFF 5 0))).events
        ≠ cycle_reads cache_zero.client_addr ++ [.msleep 1000])
    ∧ ((rpi_ups_update_cycle cache_zero 7 (answers (battery_read 0x38 0xFF 6 0))).low_counter = 0
      ∧ (rpi_ups_update_cycle cache_zero 7 (answers (battery_read 0x38 0xFF 6 0))).exit = false
      ∧ (rpi_ups_update_cycle cache_zero 7 (answers (battery_read 0x38 0xFF 6 0))).events
        = cycle_reads cache_zero.client_addr ++ [.msleep 1000])
    ∧ ((rpi_ups_update_cycle cache_zero 29 (answers (battery_read 50 0 5 0))).low_counter = 0
      ∧ (rpi_ups_update_cycle cache_zero 29 (answers (battery_read 50 0 5 0))).exit = false
      ∧ (rpi_ups_update_cycle cache_zero 29 (answers (battery_read 50 0 5 0))).events
        = cycle_reads cache_zero.client_addr ++ [.msleep 1000]) :=
  ⟨(shutdown_condition_decoding cache_zero 7 (answers (battery_read 49 0 5 0))).2.2.2.2.2.2.2.2.2.2.1
      (by decide) (by decide) (by decide),
   (shutdown_condition_decoding cache_zero 7 (answers (battery_read 0x38 0xFF 5 0))).2.2.2.2.2.2.2.2.2.1
      (by decide) (by decide),
   (shutdown_condition_decoding cache_zero 7 (answers (battery_read 0x38 0xFF 6 0))).2.2.2.2.2.2.2.2.2.2.2
      (Or.inl (by decide)),
   (shutdown_condition_decoding cache_zero 29 (answers (battery_read 50 0 5 0))).2.2.2.2.2.2.2.2.2.2.2
      (Or.inr (by decide))⟩

/-! ## Arithmetic of the battery translator -/

/-- C20: for every cached battery block, the four products computed by
`rpi_ups_battery_get_property` (voltage times 1000, signed current times 1000,
energy times 14800, voltage times signed current) lie in the signed 32-bit
range, the conversion to the 32-bit `int` leaves each of them unchanged, and
the value returned for the key is that exact integer. -/
theorem battery_products_fit (HZ : Nat) (data : rpi_ups_data) (now : Nat)
    (val : power_supply_propval) :
    let b := data.battery_buf
    let voltage := le16 (b 0) (b 1)
    let raw_current := cast_int16_t (le16 (b 2) (b 3))
    let energy := le16 (b 6) (b 7)
    (-2147483648 ≤ voltage * 1000 ∧ voltage * 1000 ≤ 2147483647
      ∧ cast_int (voltage * 1000) = voltage * 1000
      ∧ (rpi_ups_battery_get_property HZ data now POWER_SUPPLY_PROP_VOLTAGE_NOW val).val
          = .intval (voltage * 1000))
    ∧ (-2147483648 ≤ raw_current * 1000 ∧ raw_current * 1000 ≤ 2147483647
      ∧ cast_int (raw_current * 1000) = raw_current * 1000
      ∧ (rpi_ups_battery_get_property HZ data now POWER_SUPPLY_PROP_CURRENT_NOW val).val
          = .intval (raw_current * 1000))
    ∧ (-2147483648 ≤ energy * 14800 ∧ energy * 14800 ≤ 2147483647
      ∧ cast_int (energy * 14800) = energy * 14800
      ∧ (rpi_ups_battery_get_property HZ data now POWER_SUPPLY_PROP_ENERGY_NOW val).val
          = .intval (energy * 14800))
    ∧ (-2147483648 ≤ voltage * raw_current ∧ voltage * raw_current ≤ 2147483647
      ∧ cast_int (voltage * raw_current) = voltage * raw_current
      ∧ (rpi_ups_battery_get_property HZ data now POWER_SUPPLY_PROP_POWER_NOW val).val
          = .intval (voltage * raw_current)) := by
  intro b voltage raw_current energy
  have hv : 0 ≤ voltage ∧ voltage ≤ 65535 := by
    simp only [voltage, le16_eq]
    exact u16le_range _ _
  have he : 0 ≤ energy ∧ energy ≤ 65535 := by
    simp only [energy, le16_eq]
    exact u16le_range _ _
  have hc : -32768 ≤ raw_current ∧ raw_current ≤ 32767 := by
    simp only [raw_current, le16_eq, raw_current_u16le]
    exact s16_range _ (u16le_range _ _).1 (u16le_range _ _).2
  have hp := mul_range voltage raw_current hv.1 hv.2 hc.1 hc.2
  have e1 : cast_int (voltage * 1000) = voltage * 1000 := cast_int_eq _ (by omega) (by omega)
  have e2 : cast_int (raw_current * 1000) = raw_current * 1000 :=
    cast_int_eq _ (by omega) (by omega)
  have e3 : cast_int (energy * 14800) = energy * 14800 := cast_int_eq _ (by omega) (by omega)
  have e4 : cast_int (voltage * raw_current) = voltage * raw_current :=
    cast_int_eq _ hp.1 hp.2
  refine ⟨⟨by omega, by omega, e1, ?_⟩, ⟨by omega, by omega, e2, ?_⟩,
    ⟨by omega, by omega, e3, ?_⟩, ⟨hp.1, hp.2, e4, ?_⟩⟩
  · simp only [rpi_ups_battery_get_property]
    rw [if_neg (by simp)]
    simp only [b, voltage] at e1 ⊢
    rw [e1]
  · simp only [rpi_ups_battery_get_property]
    rw [if_neg (by simp)]
    simp only [b, raw_current] at e2 ⊢
    rw [e2]
  · simp only [rpi_ups_battery_get_property]
    rw [if_neg (by simp)]
    simp only [b, energy] at e3 ⊢
    rw [e3]
  · simp only [rpi_ups_battery_get_property]
    rw [if_neg (by simp)]
    simp only [b, voltage, raw_current] at e4 ⊢
    rw [e4]

/-! ## Staleness and repeated queries -/

theorem cache_after_reads_jiffies (data : rpi_ups_data) (i : cycle_input) :
    (cache_after_reads data i).last_update_jiffies = i.jiffies := by
  unfold cache_after_reads
  simp only []
  by_cases h1 : 0 ≤ i.read_0x20.ret <;> by_cases h2 : 0 ≤ i.read_0x02.ret <;>
    by_cases h3 : 0 ≤ i.read_0x10.ret <;> simp [h1, h2, h3]

theorem get_property_data (HZ : Nat) (data : rpi_ups_data) (now : Nat)
    (psp : power_supply_property) (val : power_supply_propval) :
    (rpi_ups_battery_get_property HZ data now psp val).data = data
    ∧ (rpi_ups_usb_charger_get_property data psp val).data = data := by
  constructor
  · cases psp <;> simp only [rpi_ups_battery_get_property] <;> split_ifs <;> rfl
  · cases psp <;> simp only [rpi_ups_usb_charger_get_property]
    split_ifs <;> rfl

theorem battery_time_free (HZ : Nat) (data : rpi_ups_data) (now1 now2 : Nat)
    (psp : power_supply_property) (val : power_supply_propval)
    (hpsp : psp ≠ POWER_SUPPLY_PROP_PRESENT) :
    rpi_ups_battery_get_property HZ data now1 psp val
      = rpi_ups_battery_get_property HZ data now2 psp val := by
  unfold rpi_ups_battery_get_property
  simp only [hpsp, and_false, if_false]

theorem present_value (HZ : Nat) (data : rpi_ups_data) (now : Nat)
    (val : power_supply_propval) :
    rpi_ups_battery_get_property HZ data now POWER_SUPPLY_PROP_PRESENT val
      = ⟨0, .intval (if data.last_update_jiffies * 1000 + 5000 * HZ < now * 1000 then 0 else 1),
          data⟩ := by
  unfold rpi_ups_battery_get_property
  by_cases h : data.last_update_jiffies * 1000 + 5000 * HZ < now * 1000
  · simp [(stale_iff HZ data.last_update_jiffies now).2 h, h]
  · have h' : ¬ time_after now (data.last_update_jiffies + msecs_to_jiffies HZ DATA_TIMEOUT_MS)
        = true := fun c => h ((stale_iff HZ data.last_update_jiffies now).1 c)
    simp [h', h]

/-- C18: for every key of the battery endpoint other than `present`, the return
code and the value of `rpi_ups_battery_get_property` are the same for any two
caches that hold the same battery block, whatever their timestamps (and other
fields) and whatever the two query times: staleness is not signalled on these
keys. -/
theorem stale_only_on_present (HZ : Nat) (d1 d2 : rpi_ups_data) (now1 now2 : Nat)
    (psp : power_supply_property) (val : power_supply_propval)
    (hpsp : psp ≠ POWER_SUPPLY_PROP_PRESENT) (hb : d1.battery_buf = d2.battery_buf) :
    (rpi_ups_battery_get_property HZ d1 now1 psp val).ret
        = (rpi_ups_battery_get_property HZ d2 now2 psp val).ret
    ∧ (rpi_ups_battery_get_property HZ d1 now1 psp val).val
        = (rpi_ups_battery_get_property HZ d2 now2 psp val).val := by
  unfold rpi_ups_battery_get_property
  simp only [hpsp, and_false, if_false, hb]
  cases psp <;> first | exact absurd rfl hpsp | (constructor <;> split_ifs <;> rfl)

/-- Witness of C18: the voltage of the scenario block, fresh at tick 0 and
stale at tick 9000. -/
theorem stale_only_on_present_witness :
    POWER_SUPPLY_PROP_VOLTAGE_NOW ≠ POWER_SUPPLY_PROP_PRESENT
    ∧ (⟨0x2d, scenario_block, fun _ => 0, 0, 0⟩ : rpi_ups_data).battery_buf
        = (⟨0x40, scenario_block, fun _ => 1, 3, 7000⟩ : rpi_ups_data).battery_buf
    ∧ (rpi_ups_battery_get_property 250 ⟨0x2d, scenario_block, fun _ => 0, 0, 0⟩ 9000
          POWER_SUPPLY_PROP_VOLTAGE_NOW (.intval 0)).val
        = (rpi_ups_battery_get_property 250 ⟨0x40, scenario_block, fun _ => 1, 3, 7000⟩ 7000
          POWER_SUPPLY_PROP_VOLTAGE_NOW (.intval 0)).val :=
  ⟨by decide, rfl,
   (stale_only_on_present 250 ⟨0x2d, scenario_block, fun _ => 0, 0, 0⟩
      ⟨0x40, scenario_block, fun _ => 1, 3, 7000⟩ 9000 7000 POWER_SUPPLY_PROP_VOLTAGE_NOW
      (.intval 0) (by decide) rfl).2⟩

/-- Counterexample to C13 as stated: on the zero cache (timestamp 0) at 250 ticks
per second, with no update in between, `present` is 1 when queried at tick 0
and 0 when queried at tick 1251. -/
theorem present_changes_between_updates :
    (rpi_ups_battery_get_property 250 cache_zero 0 POWER_SUPPLY_PROP_PRESENT (.intval 7)).val
        = .intval 1
    ∧ (rpi_ups_battery_get_property 250 cache_zero 1251 POWER_SUPPLY_PROP_PRESENT
        (.intval 7)).val = .intval 0
    ∧ (rpi_ups_battery_get_property 250 cache_zero 0 POWER_SUPPLY_PROP_PRESENT (.intval 7)).val
        ≠ (rpi_ups_battery_get_property 250 cache_zero 1251 POWER_SUPPLY_PROP_PRESENT
            (.intval 7)).val := by
  decide

/-- C13, amended: for every cache and any two query times with no update in
between, a query of a battery key followed by a second query of the same key
on the cache the first one left returns the same code and value when the key
is not `present`, and also for `present` when the two query times lie on the
same side of the freshness bound (both more than 5000 ms after the timestamp,
or both not); a charger query followed by a second one returns the same
result; and a query of either endpoint leaves every cache field as it was. -/
theorem repeated_queries (HZ : Nat) (data : rpi_ups_data) (now1 now2 : Nat)
    (psp : power_supply_property) (val : power_supply_propval) :
    let q1 := rpi_ups_battery_get_property HZ data now1 psp val
    let q2 := rpi_ups_battery_get_property HZ q1.data now2 psp val
    let c1 := rpi_ups_usb_charger_get_property data psp val
    let c2 := rpi_ups_usb_charger_get_property c1.data psp val
    (psp ≠ POWER_SUPPLY_PROP_PRESENT → q2.ret = q1.ret ∧ q2.val = q1.val)
    ∧ ((data.last_update_jiffies * 1000 + 5000 * HZ < now1 * 1000
          ↔ data.last_update_jiffies * 1000 + 5000 * HZ < now2 * 1000) →
        q2.ret = q1.ret ∧ q2.val = q1.val)
    ∧ (c2.ret = c1.ret ∧ c2.val = c1.val)
    ∧ q1.data = data ∧ q2.data = data ∧ c1.data = data ∧ c2.data = data := by
  intro q1 q2 c1 c2
  have hq1 : q1.data = data := (get_property_data HZ data now1 psp val).1
  have hc1 : c1.data = data := (get_property_data HZ data now1 psp val).2
  have hq2 : q2.data = data := by
    show (rpi_ups_battery_get_property HZ q1.data now2 psp val).data = _
    rw [hq1]
    exact (get_property_data HZ data now2 psp val).1
  have hc2 : c2 = c1 := by
    show rpi_ups_usb_charger_get_property c1.data psp val = _
    rw [hc1]
  have hother : psp ≠ POWER_SUPPLY_PROP_PRESENT → q2.ret = q1.ret ∧ q2.val = q1.val := by
    intro hpsp
    have e : q2 = q1 := by
      show rpi_ups_battery_get_property HZ q1.data now2 psp val = _
      rw [hq1]
      exact battery_time_free HZ data now2 now1 psp val hpsp
    rw [e]
    exact ⟨rfl, rfl⟩
  refine ⟨hother, ?_, ⟨by rw [hc2], by rw [hc2]⟩, hq1, hq2, hc1, by rw [hc2, hc1]⟩
  intro hside
  by_cases hpsp : psp = POWER_SUPPLY_PROP_PRESENT
  · subst hpsp
    have e1 : q1 = ⟨0, .intval (if data.last_update_jiffies * 1000 + 5000 * HZ < now1 * 1000
        then 0 else 1), data⟩ := present_value HZ data now1 val
    have e2 : q2 = ⟨0, .intval (if data.last_update_jiffies * 1000 + 5000 * HZ < now2 * 1000
        then 0 else 1), data⟩ := by
      show rpi_ups_battery_get_property HZ q1.data now2 POWER_SUPPLY_PROP_PRESENT val = _
      rw [hq1]
      exact present_value HZ data now2 val
    rw [e1, e2]
    by_cases h1 : data.last_update_jiffies * 1000 + 5000 * HZ < now1 * 1000
    · simp [h1, hside.1 h1]
    · have h2 : ¬ data.last_update_jiffies * 1000 + 5000 * HZ < now2 * 1000 :=
        fun h => h1 (hside.2 h)
      simp [h1, h2]
  · exact hother hpsp

/-- Witness of C13, amended: two queries of `present` at ticks 0 and 1250, both
within 5000 ms of the timestamp 0 at 250 ticks per second. -/
theorem repeated_queries_witness :
    ((cache_zero.last_update_jiffies * 1000 + 5000 * 250 < 0 * 1000
        ↔ cache_zero.last_update_jiffies * 1000 + 5000 * 250 < 1250 * 1000))
    ∧ (rpi_ups_battery_get_property 250
          (rpi_ups_battery_get_property 250 cache_zero 0 POWER_SUPPLY_PROP_PRESENT
            (.intval 7)).data 1250 POWER_SUPPLY_PROP_PRESENT (.intval 7)).val
        = (rpi_ups_battery_get_property 250 cache_zero 0 POWER_SUPPLY_PROP_PRESENT
            (.intval 7)).val :=
  ⟨by decide,
   ((repeated_queries 250 cache_zero 0 1250 POWER_SUPPLY_PROP_PRESENT (.intval 7)).2.1
      (by decide)).2⟩

set_option maxRecDepth 100000 in
/-- C12 (the code departs from the claim): the timestamp is refreshed by every
iteration of the loop, also when its reads fail, so a `present` query made at
the time of an iteration returns 1 whatever the reads returned. On the cache
created at tick 0, after ten iterations one second apart (250 ticks per
second) in which every read failed, the battery block is still the initial
one, no read has succeeded in the 10 000 ms since the attach, and `present`
queried at tick 2500 is 1, not 0. -/
theorem present_fresh_without_successful_read :
    (∀ (HZ : Nat) (data : rpi_ups_data) (low_counter : Int) (i : cycle_input)
        (val : power_supply_propval),
        (rpi_ups_battery_get_property HZ (rpi_ups_update_cycle data low_counter i).data
            i.jiffies POWER_SUPPLY_PROP_PRESENT val).ret = 0
        ∧ (rpi_ups_battery_get_property HZ (rpi_ups_update_cycle data low_counter i).data
            i.jiffies POWER_SUPPLY_PROP_PRESENT val).val = .intval 1)
    ∧ script_unplugged.all (fun i => decide (i.read_0x20.ret < 0 ∧ i.read_0x02.ret < 0
        ∧ i.read_0x10.ret < 0)) = true
    ∧ (rpi_ups_update_thread (probe_cache 0x2d 0) script_unplugged).cycles.length = 10
    ∧ (final_cache (probe_cache 0x2d 0)
        (rpi_ups_update_thread (probe_cache 0x2d 0) script_unplugged).cycles).last_update_jiffies
        = 2500
    ∧ (rpi_ups_battery_get_property 250
        (final_cache (probe_cache 0x2d 0)
          (rpi_ups_update_thread (probe_cache 0x2d 0) script_unplugged).cycles)
        2500 POWER_SUPPLY_PROP_PRESENT (.intval 0)).val = .intval 1 := by
  refine ⟨?_, by decide, by decide, by decide, by decide⟩
  intro HZ data low_counter i val
  have hd : (rpi_ups_update_cycle data low_counter i).data.last_update_jiffies = i.jiffies := by
    rw [(cycle_facts data low_counter i).1, cache_after_reads_jiffies]
  rw [present_value, hd]
  simp

/-! ## The lock -/

/-- C14 (the code departs from the claim): in the loop body and in the battery
translator every access to a cache field lies between a lock acquisition and
the following release, for every outcome of the reads, every key and both
outcomes of the staleness and sign tests; so does the read of the status byte
in the charger translator. The bytes of the charger block are read by the
charger translator after it has released the lock: for the keys voltage,
current and power its accesses are not all made under the lock. -/
theorem charger_block_read_after_unlock :
    (∀ ok_0x20 ok_0x02 ok_0x10 : Bool,
        locked_accesses false (rpi_ups_update_cycle_steps ok_0x20 ok_0x02 ok_0x10) = true)
    ∧ (∀ (stale discharging : Bool) (psp : power_supply_property),
        locked_accesses false (rpi_ups_battery_get_property_steps stale discharging psp) = true)
    ∧ locked_accesses false (rpi_ups_usb_charger_get_property_steps POWER_SUPPLY_PROP_STATUS)
        = true
    ∧ rpi_ups_usb_charger_get_property_steps POWER_SUPPLY_PROP_VOLTAGE_NOW
        = [.spin_lock_irqsave, .read .charger_status 0, .spin_unlock_irqrestore,
           .read .charger_buf 0, .read .charger_buf 1]
    ∧ locked_accesses false
        (rpi_ups_usb_charger_get_property_steps POWER_SUPPLY_PROP_VOLTAGE_NOW) = false
    ∧ locked_accesses false
        (rpi_ups_usb_charger_get_property_steps POWER_SUPPLY_PROP_CURRENT_NOW) = false
    ∧ locked_accesses false
        (rpi_ups_usb_charger_get_property_steps POWER_SUPPLY_PROP_POWER_NOW) = false := by
  refine ⟨by decide, ?_, by decide, rfl, by decide, by decide, by decide⟩
  intro stale discharging psp
  cases stale <;> cases discharging <;> cases psp <;> rfl

/-! ## Attach and detach -/

/-- C15: `rpi_ups_probe` (with the device context allocated) is all-or-nothing.
If the battery registration fails with error `e`, the probe returns `e` having
made no other registration and no thread start. If the charger registration
fails, the battery endpoint is unregistered, no thread start is made and `e`
is returned. If the thread start fails, the charger and then the battery
endpoint are unregistered and `e` is returned. In these three cases nothing is
registered and no thread runs afterwards. When all three succeed the probe
returns 0 with both endpoints registered and the thread running. In every
case a thread start is preceded by the two successful registrations. -/
theorem probe_all_or_nothing (addr jiffies : Nat) (e : Int) (u t : ptr_outcome) :
    rpi_ups_probe addr ⟨true, jiffies, .error e, u, t⟩
      = ⟨e, [.power_supply_register "rpi-ups-battery" false, .dev_err_battery e],
          some (probe_cache addr jiffies), false⟩
    ∧ rpi_ups_probe addr ⟨true, jiffies, .valid, .error e, t⟩
      = ⟨e, [.power_supply_register "rpi-ups-battery" true,
              .power_supply_register "rpi-ups-usb-charger" false,
              .dev_err_usb_charger e,
              .power_supply_unregister "rpi-ups-battery"],
          some (probe_cache addr jiffies), false⟩
    ∧ rpi_ups_probe addr ⟨true, jiffies, .valid, .valid, .error e⟩
      = ⟨e, [.power_supply_register "rpi-ups-battery" true,
              .power_supply_register "rpi-ups-usb-charger" true,
              .kthread_run "rpi_ups_update" false,
              .dev_err_update_thread e,
              .power_supply_unregister "rpi-ups-usb-charger",
              .power_supply_unregister "rpi-ups-battery"],
          some (probe_cache addr jiffies), true⟩
    ∧ rpi_ups_probe addr ⟨true, jiffies, .valid, .valid, .valid⟩
      = ⟨0, [.power_supply_register "rpi-ups-battery" true,
              .power_supply_register "rpi-ups-usb-charger" true,
              .kthread_run "rpi_ups_update" true,
              .dev_info_probed],
          some (probe_cache addr jiffies), true⟩
    ∧ endpoints_after (rpi_ups_probe addr ⟨true, jiffies, .error e, u, t⟩).events
        = ⟨false, false, false⟩
    ∧ endpoints_after (rpi_ups_probe addr ⟨true, jiffies, .valid, .error e, t⟩).events
        = ⟨false, false, false⟩
    ∧ endpoints_after (rpi_ups_probe addr ⟨true, jiffies, .valid, .valid, .error e⟩).events
        = ⟨false, false, false⟩
    ∧ endpoints_after (rpi_ups_probe addr ⟨true, jiffies, .valid, .valid, .valid⟩).events
        = ⟨true, true, true⟩
    ∧ (∀ (i : probe_input) (pre post : List lifecycle_event) (name : String) (ok : Bool),
        (rpi_ups_probe addr i).events = pre ++ lifecycle_event.kthread_run name ok :: post →
        registered_names pre = ["rpi-ups-battery", "rpi-ups-usb-charger"]) := by
  refine ⟨rfl, rfl, rfl, rfl, ?_, ?_, ?_, ?_, ?_⟩
  · simp [rpi_ups_probe, endpoints_after, endpoints_step]
  · simp [rpi_ups_probe, endpoints_after, endpoints_step]
  · simp [rpi_ups_probe, endpoints_after, endpoints_step]
  · simp [rpi_ups_probe, endpoints_after, endpoints_step]
  · intro i pre post name ok h
    obtain ⟨ok0, j, b, u, t⟩ := i
    rcases pre with _ | ⟨p1, _ | ⟨p2, _ | ⟨p3, _ | ⟨p4, _ | ⟨p5, _ | ⟨p6, pre⟩⟩⟩⟩⟩⟩ <;>
      cases ok0 <;> cases b <;> cases u <;> cases t <;>
      simp [rpi_ups_probe] at h <;>
      (obtain ⟨h1, h2, -⟩ := h; subst h1 h2; rfl)

/-- Witness of C15: the successful probe of a device at address 0x2d, whose
thread start follows the two registrations. -/
theorem probe_all_or_nothing_witness :
    (rpi_ups_probe 0x2d ⟨true, 0, .valid, .valid, .valid⟩).events
      = [.power_supply_register "rpi-ups-battery" true,
         .power_supply_register "rpi-ups-usb-charger" true]
        ++ lifecycle_event.kthread_run "rpi_ups_update" true :: [.dev_info_probed]
    ∧ registered_names [.power_supply_register "rpi-ups-battery" true,
         .power_supply_register "rpi-ups-usb-charger" true]
      = ["rpi-ups-battery", "rpi-ups-usb-charger"] :=
  ⟨rfl,
   (probe_all_or_nothing 0x2d 0 (-12) .valid .valid).2.2.2.2.2.2.2.2
     ⟨true, 0, .valid, .valid, .valid⟩
     [.power_supply_register "rpi-ups-battery" true,
      .power_supply_register "rpi-ups-usb-charger" true]
     [.dev_info_probed] "rpi_ups_update" true rfl⟩

/-- C16: after a successful `rpi_ups_probe` (which registers the battery endpoint
first and the charger endpoint second, then starts the thread),
`rpi_ups_remove` makes its calls in this order: `kthread_stop` on the sampling
thread, then the unregistration of the charger endpoint, then that of the
battery endpoint; the order of unregistration is the reverse of the order of
registration, and afterwards nothing is registered and no thread runs. -/
theorem remove_order (addr jiffies : Nat) :
    (rpi_ups_probe addr ⟨true, jiffies, .valid, .valid, .valid⟩).ret = 0
    ∧ (rpi_ups_probe addr ⟨true, jiffies, .valid, .valid, .valid⟩).update_thread = true
    ∧ registered_names (rpi_ups_probe addr ⟨true, jiffies, .valid, .valid, .valid⟩).events
        = ["rpi-ups-battery", "rpi-ups-usb-charger"]
    ∧ rpi_ups_remove (rpi_ups_probe addr ⟨true, jiffies, .valid, .valid, .valid⟩).update_thread
        = [.kthread_stop, .power_supply_unregister "rpi-ups-usb-charger",
           .power_supply_unregister "rpi-ups-battery", .dev_info_removed]
    ∧ unregistered_names
        (rpi_ups_remove (rpi_ups_probe addr ⟨true, jiffies, .valid, .valid, .valid⟩).update_thread)
        = (registered_names
            (rpi_ups_probe addr ⟨true, jiffies, .valid, .valid, .valid⟩).events).reverse
    ∧ endpoints_after
        ((rpi_ups_probe addr ⟨true, jiffies, .valid, .valid, .valid⟩).events ++ [.kthread_stop])
        = ⟨true, true, false⟩
    ∧ endpoints_after
        ((rpi_ups_probe addr ⟨true, jiffies, .valid, .valid, .valid⟩).events
          ++ rpi_ups_remove
              (rpi_ups_probe addr ⟨true, jiffies, .valid, .valid, .valid⟩).update_thread)
        = ⟨false, false, false⟩ := by
  refine ⟨rfl, rfl, rfl, rfl, rfl, ?_, ?_⟩
  · simp [rpi_ups_probe, endpoints_after, endpoints_step]
  · simp [rpi_ups_probe, rpi_ups_remove, endpoints_after, endpoints_step]

/-! ## Failing battery reads from the initial cache -/

theorem zero_block_condition : shutdown_condition (fun _ => (0 : u8)) := by
  unfold shutdown_condition
  decide

/-- From a cache whose battery block is zero and a counter below 30, when every
battery read of the script fails: every iteration decodes capacity 0 and
current 0, finds the condition true and counts one more. -/
theorem loop_zero_block (script : List cycle_input) :
    ∀ (data : rpi_ups_data) (c : Nat), data.battery_buf = (fun _ => 0) → c < 30 →
      script.all (fun i => decide (i.read_0x20.ret < 0)) = true →
      ∀ (k : Nat) (r : cycle_result),
        (rpi_ups_update_thread_loop data c script).cycles[k]? = some r →
        r.capacity = 0 ∧ r.raw_current = 0 ∧ low_battery r = true
        ∧ r.low_counter = ((c + k + 1 : Nat) : Int) ∧ c + k + 1 ≤ 30 := by
  induction script with
  | nil =>
    intro data c _ _ _ k r hr
    simp [loop_nil] at hr
  | cons i script ih =>
    intro data c hz hc hfail k r hr
    have hfail1 : i.read_0x20.ret < 0 := by
      simp only [List.all_cons, Bool.and_eq_true, decide_eq_true_eq] at hfail
      exact hfail.1
    have hfail2 : script.all (fun i => decide (i.read_0x20.ret < 0)) = true := by
      simp only [List.all_cons, Bool.and_eq_true] at hfail
      exact hfail.2
    have hb : (cache_after_reads data i).battery_buf = (fun _ => 0) := by
      rw [cache_after_reads_battery, if_neg (by omega), hz]
    have hsc : shutdown_condition (cache_after_reads data i).battery_buf := by
      rw [hb]
      exact zero_block_condition
    have hcast : cast_int ((c : Int) + 1) = ((c + 1 : Nat) : Int) := by
      rw [cast_int_eq _ (by omega) (by omega)]
      push_cast
      rfl
    have hfacts : (rpi_ups_update_cycle data c i).capacity = 0
        ∧ (rpi_ups_update_cycle data c i).raw_current = 0
        ∧ low_battery (rpi_ups_update_cycle data c i) = true
        ∧ (rpi_ups_update_cycle data c i).low_counter = ((c + 1 : Nat) : Int)
        ∧ (rpi_ups_update_cycle data c i).data.battery_buf = (fun _ => 0) := by
      have hf := cycle_facts data c i
      simp only [] at hf
      obtain ⟨hdata, hlow, hctr, -, -, -⟩ := hf
      have hcap : (rpi_ups_update_cycle data c i).capacity = 0 := by
        by_cases h30 : cast_int ((c : Int) + 1) ≥ 30
        · rw [cycle_fire data c i hsc h30]
          simp only [hb]
          decide
        · rw [cycle_count data c i hsc h30]
          simp only [hb]
          decide
      have hcur : (rpi_ups_update_cycle data c i).raw_current = 0 := by
        by_cases h30 : cast_int ((c : Int) + 1) ≥ 30
        · rw [cycle_fire data c i hsc h30]
          simp only [hb]
          decide
        · rw [cycle_count data c i hsc h30]
          simp only [hb]
          decide
      refine ⟨hcap, hcur, hlow.2 hsc, ?_, ?_⟩
      · rw [hctr, if_pos hsc, hcast]
      · rw [hdata, hb]
    obtain ⟨hcap, hcur, hlow, hctr, hzero⟩ := hfacts
    cases hs : i.kthread_should_stop with
    | true => simp [loop_stop data c i script hs] at hr
    | false =>
      cases he : (rpi_ups_update_cycle data c i).exit with
      | true =>
        rw [loop_exit data c i script hs he] at hr
        cases k with
        | zero =>
          simp only [List.getElem?_cons_zero, Option.some.injEq] at hr
          subst hr
          exact ⟨hcap, hcur, hlow, by rw [hctr], by omega⟩
        | succ k => simp at hr
      | false =>
        rw [loop_continue data c i script hs he] at hr
        have hlt : c + 1 < 30 := by
          by_contra hn
          have h30 : 30 ≤ (rpi_ups_update_cycle data c i).low_counter := by
            rw [hctr]
            exact_mod_cast (by omega : 30 ≤ c + 1)
          rw [((cycle_facts data c i).2.2.2.1).2 h30] at he
          exact absurd he (by simp)
        cases k with
        | zero =>
          simp only [List.getElem?_cons_zero, Option.some.injEq] at hr
          subst hr
          exact ⟨hcap, hcur, hlow, by rw [hctr], by omega⟩
        | succ k =>
          simp only [List.getElem?_cons_succ] at hr
          rw [hctr] at hr
          obtain ⟨h1, h2, h3, h4, h5⟩ := ih _ (c + 1) hzero hlt hfail2 k r hr
          refine ⟨h1, h2, h3, ?_, by omega⟩
          rw [h4]
          have : c + 1 + k + 1 = c + (k + 1) + 1 := by omega
          rw [this]

/-- C19: from the zero-initialised cache created by `rpi_ups_probe` (any device
address, any attach time), when every read of register 0x20 of the script
fails, whatever the other reads return: every iteration decodes capacity 0
and current 0 and finds the shutdown condition true, the counter after
iteration `k` (from 0) is `k + 1`, and power-off can only be invoked in the
30th iteration; when no stop is requested and the script has at least 30
iterations, the run has exactly 30 iterations and the 30th invokes power-off,
its calls being the three reads, the low-battery message, the calls of the
protective-write step (the write of 0x55 to register 0x01 and the message on
its outcome when the address is 0x2d) and then the power-off. -/
theorem failing_battery_reads_power_off (addr jiffies : Nat) (script : List cycle_input)
    (hfail : script.all (fun i => decide (i.read_0x20.ret < 0)) = true) :
    let rs := (rpi_ups_update_thread (probe_cache addr jiffies) script).cycles
    (∀ (k : Nat) (r : cycle_result), rs[k]? = some r →
        r.capacity = 0 ∧ r.raw_current = 0 ∧ low_battery r = true
        ∧ r.low_counter = ((k + 1 : Nat) : Int))
    ∧ (∀ k, fires_at rs k → k = 29)
    ∧ (never_stopped script = true → 30 ≤ script.length →
        rs.length = 30 ∧ fires_at rs 29
        ∧ (∃ w, events_at rs 29
            = cycle_reads addr ++ [.pr_info_low_battery 0 0] ++ shutdown_write addr w
                ++ [.kernel_power_off])
        ∧ (addr = 0x2d → ∃ log, events_at rs 29
            = cycle_reads 0x2d ++ [.pr_info_low_battery 0 0,
                .i2c_smbus_write_byte_data 0x2d 0x01 0x55, log, .kernel_power_off])) := by
  intro rs
  have hz := loop_zero_block script (probe_cache addr jiffies) 0 rfl (by omega) hfail
  have hA : ∀ (k : Nat) (r : cycle_result), rs[k]? = some r →
      r.capacity = 0 ∧ r.raw_current = 0 ∧ low_battery r = true
      ∧ r.low_counter = ((k + 1 : Nat) : Int) ∧ k + 1 ≤ 30 := by
    intro k r hr
    obtain ⟨h1, h2, h3, h4, h5⟩ := hz k r hr
    refine ⟨h1, h2, h3, ?_, by omega⟩
    rw [h4]
    have : 0 + k + 1 = k + 1 := by omega
    rw [this]
  have hB : ∀ k, fires_at rs k → k = 29 := by
    intro k hf
    have hk := fires_at_lt rs k hf
    have h30 := (fires_at_iff_counter (probe_cache addr jiffies) 0 script k).1 hf
    have hget : rs[k]? = some rs[k] := List.getElem?_eq_getElem hk
    obtain ⟨-, -, -, h4, h5⟩ := hA k _ hget
    have hc : counter_at rs k = rs[k].low_counter := (events_at_some rs k _ hget).2
    have h30' : (30 : Int) ≤ counter_at rs k := h30
    rw [hc, h4] at h30'
    have : 30 ≤ k + 1 := by exact_mod_cast h30'
    omega
  refine ⟨fun k r hr => ⟨(hA k r hr).1, (hA k r hr).2.1, (hA k r hr).2.2.1,
    (hA k r hr).2.2.2.1⟩, hB, ?_⟩
  intro hrun hlen
  have hT := thread_counters (probe_cache addr jiffies) script hrun
  have hreach : ∀ k, k < 30 → k < rs.length := by
    intro k
    induction k using Nat.strong_induction_on with
    | _ k ih =>
      intro hk
      apply (hT k).1.2
      refine ⟨by omega, ?_⟩
      intro j hj
      have hjl : j < rs.length := ih j hj (by omega)
      have hget : rs[j]? = some rs[j] := List.getElem?_eq_getElem hjl
      have h1 := (hT j).2.1 hjl
      have hc : counter_at rs j = rs[j].low_counter := (events_at_some rs j _ hget).2
      have h1' : counter_at rs j
          = ((counter_after 0 ((condition_seq (probe_cache addr jiffies) script).take (j + 1))
              : Nat) : Int) := h1
      rw [hc, (hA j _ hget).2.2.2.1] at h1'
      have : j + 1 = counter_after 0
          ((condition_seq (probe_cache addr jiffies) script).take (j + 1)) := by
        exact_mod_cast h1'
      omega
  have h29 : 29 < rs.length := hreach 29 (by omega)
  have hget : rs[29]? = some rs[29] := List.getElem?_eq_getElem h29
  obtain ⟨hcap, hcur, -, hctr, -⟩ := hA 29 _ hget
  have hc : counter_at rs 29 = rs[29].low_counter := (events_at_some rs 29 _ hget).2
  have h30 : (30 : Int) ≤ rs[29].low_counter := by
    rw [hctr]
    decide
  have hfire : fires_at rs 29 := by
    apply (fires_at_iff_counter (probe_cache addr jiffies) 0 script 29).2
    show (30 : Int) ≤ counter_at rs 29
    rw [hc]
    exact h30
  obtain ⟨d, c', i, hr, haddr⟩ := loop_cycles_are_cycles script (probe_cache addr jiffies) 0
    rs[29] (List.getElem_mem h29)
  have haddr' : d.client_addr = addr := haddr
  have hf := cycle_facts d c' i
  simp only [] at hf
  obtain ⟨-, -, -, hexit, hev, -⟩ := hf
  rw [← hr] at hexit hev
  have hlast := loop_exit_last script (probe_cache addr jiffies) 0 29 _ hget (hexit.2 h30)
  have hevents : events_at rs 29
      = cycle_reads addr ++ [.pr_info_low_battery 0 0] ++ shutdown_write addr i.write_0x01
          ++ [.kernel_power_off] := by
    rw [(events_at_some rs 29 _ hget).1, hev h30, hcap, hcur, haddr']
  refine ⟨hlast.1.symm, hfire, ⟨i.write_0x01, hevents⟩, ?_⟩
  intro h2d
  subst h2d
  refine ⟨if i.write_0x01 < 0 then .pr_err_write_failed i.write_0x01 else .pr_info_write_ok, ?_⟩
  rw [hevents]
  simp [shutdown_write]

set_option maxRecDepth 100000 in
/-- Witness of C19: thirty iterations in which every read fails, on the cache of
a device at address 0x2d attached at tick 0. -/
theorem failing_battery_reads_power_off_witness :
    (List.replicate 30 (answers_failing 0)).all (fun i => decide (i.read_0x20.ret < 0)) = true
    ∧ never_stopped (List.replicate 30 (answers_failing 0)) = true
    ∧ 30 ≤ (List.replicate 30 (answers_failing 0)).length
    ∧ (rpi_ups_update_thread (probe_cache 0x2d 0)
        (List.replicate 30 (answers_failing 0))).cycles.length = 30
    ∧ fires_at (rpi_ups_update_thread (probe_cache 0x2d 0)
        (List.replicate 30 (answers_failing 0))).cycles 29 :=
  ⟨by decide, by decide, by decide,
   ((failing_battery_reads_power_off 0x2d 0 (List.replicate 30 (answers_failing 0))
      (by decide)).2.2 (by decide) (by decide)).1,
   ((failing_battery_reads_power_off 0x2d 0 (List.replicate 30 (answers_failing 0))
      (by decide)).2.2 (by decide) (by decide)).2.1⟩

end RpiUps
